import Mathlib

/-!
Verification of the Task Inactivity Orchestrator of the twilio-services
repository.  The definitions below are a shallow embedding of the TypeScript
sources in src/modules/tasks (tasks.service.ts, tasks.repository.ts,
flex.tasks.repository.ts, tasks.messages.ts and the scheduler in
tasks.controller.ts).  Timestamps are modelled as Int milliseconds, nullable
columns as Option, JavaScript truthiness of strings as emptiness checks, and
remote calls as data supplied by an environment record.
-/

/-- JavaScript String.prototype.trim modelled structurally on the character
list (whitespace stripped from both ends), so that it evaluates inside the
kernel. -/
def jsTrim (s : String) : String :=
  ⟨((s.data.dropWhile Char.isWhitespace).reverse.dropWhile Char.isWhitespace).reverse⟩

/-- JavaScript String.prototype.toLowerCase modelled as a character map. -/
def jsLower (s : String) : String :=
  ⟨s.data.map Char.toLower⟩

/-- JavaScript String.prototype.startsWith. -/
def jsStartsWith (s pre : String) : Bool :=
  pre.data.isPrefixOf s.data

/-- Contiguous-sublist test on character lists (structural recursion). -/
def charInfix (needle : List Char) : List Char → Bool
  | [] => needle.isEmpty
  | h :: t => needle.isPrefixOf (h :: t) || charInfix needle t

/-- JavaScript style includes: empty needle is always contained. -/
def jsIncludes (haystack needle : String) : Bool :=
  charInfix needle.data haystack.data

/-- value?.trim().toLowerCase() ?? '' from the source. -/
def normJs (v : Option String) : String :=
  jsLower (jsTrim (v.getD ""))

/-- First candidate that is a string with non-empty trim, returned trimmed.
Shared shape of pickWorkerNameFromAttributes and pickWorkerSidFromAttributes. -/
def firstNonEmptyTrim : List (Option String) → Option String
  | [] => none
  | none :: rest => firstNonEmptyTrim rest
  | some s :: rest => if jsTrim s ≠ "" then some (jsTrim s) else firstNonEmptyTrim rest

/-- Lookup in an association list keyed by String. -/
def lookupAssoc (m : List (String × String)) (k : String) : Option String :=
  (m.find? (fun p => p.1 == k)).map (fun p => p.2)

/-- Insert or replace an entry of an association list keyed by String. -/
def insertAssoc (m : List (String × String)) (k v : String) : List (String × String) :=
  if m.any (fun p => p.1 == k) then
    m.map (fun p => if p.1 == k then (k, v) else p)
  else
    m ++ [(k, v)]

-- ================================
-- tasks.messages.ts
-- ================================

def operatorHandoffMessage (customerName operatorName : String) : String :=
  "Olá, " ++ customerName ++ ". Meu nome é " ++ operatorName ++
    " e irei dar continuidade ao seu atendimento.😉❤"

def stillInChatMessage (customerName : String) : String :=
  "Olá, " ++ customerName ++ ". Você ainda está no chat?"

def inactivityCloseMessage (customerName : String) : String :=
  "Olá, " ++ customerName ++
    ". Identificamos que você está inativo e seu chat será encerrado por inatividade."

-- ================================
-- shared/types: Task row (table tasks)
-- ================================

/-- Row of the internal tasks table.  status is one of "open", "assigned",
"closed" as in the TypeScript union type. -/
structure TaskRow where
  id : String
  customer_name : String := ""
  customer_contact : String := ""
  operator_id : Option String := none
  operator_name : Option String := none
  status : String := "open"
  created_at : Int := 0
  updated_at : Int := 0
  assigned_at : Option Int := none
  greeting_sent_at : Option Int := none
  ping_sent_at : Option Int := none
  inactive_sent_at : Option Int := none
  last_customer_activity_at : Option Int := none
  closed_at : Option Int := none
  close_reason : Option String := none
  deriving Repr, DecidableEq

namespace TasksRepository

/-- SELECT * FROM tasks WHERE id = ? (first row). -/
def findById (store : List TaskRow) (id : String) : Option TaskRow :=
  store.find? (fun t => t.id == id)

/-- UPDATE ... WHERE id = ? applied to every row with that primary key. -/
def updateTask (store : List TaskRow) (id : String) (f : TaskRow → TaskRow) : List TaskRow :=
  store.map (fun t => if t.id == id then f t else t)

/-- findByStatus with the LIMIT of the query. -/
def findByStatus (store : List TaskRow) (status : String) (limit : Nat) : List TaskRow :=
  (store.filter (fun t => t.status == status)).take limit

/-- assignToOperator: reads the existing row, then updates operator columns,
status, assigned_at (kept when already set) and updated_at.  Returns the
updated store with the re-fetched row, or none when the id does not exist. -/
def assignToOperator (store : List TaskRow) (id opId opName : String) (now : Int) :
    Option (List TaskRow × TaskRow) :=
  match findById store id with
  | none => none
  | some existing =>
    let store2 := updateTask store id (fun t =>
      { t with
        operator_id := some opId
        operator_name := some opName
        status := "assigned"
        assigned_at := some (existing.assigned_at.getD now)
        updated_at := now })
    match findById store2 id with
    | none => none
    | some refetched => some (store2, refetched)

/-- setGreetingSent: writes greeting_sent_at and resets ping_sent_at and
inactive_sent_at to null in the same UPDATE. -/
def setGreetingSent (store : List TaskRow) (id : String) (atMs now : Int) :
    Option (List TaskRow × TaskRow) :=
  match findById store id with
  | none => none
  | some _ =>
    let store2 := updateTask store id (fun t =>
      { t with
        greeting_sent_at := some atMs
        ping_sent_at := none
        inactive_sent_at := none
        updated_at := now })
    match findById store2 id with
    | none => none
    | some refetched => some (store2, refetched)

def markCustomerActivity (store : List TaskRow) (id : String) (atMs now : Int) :
    Option (List TaskRow × TaskRow) :=
  match findById store id with
  | none => none
  | some _ =>
    let store2 := updateTask store id (fun t =>
      { t with last_customer_activity_at := some atMs, updated_at := now })
    match findById store2 id with
    | none => none
    | some refetched => some (store2, refetched)

def markPingSent (store : List TaskRow) (id : String) (atMs now : Int) :
    Option (List TaskRow × TaskRow) :=
  match findById store id with
  | none => none
  | some _ =>
    let store2 := updateTask store id (fun t =>
      { t with ping_sent_at := some atMs, updated_at := now })
    match findById store2 id with
    | none => none
    | some refetched => some (store2, refetched)

/-- closeDueToInactivity: one UPDATE writing inactive_sent_at and closed_at
with the same timestamp, status closed and close_reason inactivity. -/
def closeDueToInactivity (store : List TaskRow) (id : String) (atMs now : Int) :
    Option (List TaskRow × TaskRow) :=
  match findById store id with
  | none => none
  | some _ =>
    let store2 := updateTask store id (fun t =>
      { t with
        inactive_sent_at := some atMs
        status := "closed"
        closed_at := some atMs
        close_reason := some "inactivity"
        updated_at := now })
    match findById store2 id with
    | none => none
    | some refetched => some (store2, refetched)

end TasksRepository

-- ================================
-- TaskInactivityScheduler (tasks.controller.ts tail)
-- ================================

/-- Armed pair of deadlines for one task id, recorded as the computed
setTimeout delays. -/
structure TimerEntry where
  pingDelay : Int
  inactiveDelay : Int
  deriving Repr, DecidableEq

/-- The scheduler map from task id to its timer pair. -/
abbrev SchedState := List (String × TimerEntry)

def SchedState.cancel (s : SchedState) (taskId : String) : SchedState :=
  List.filter (fun e => ¬ (e.1 == taskId)) s

def SchedState.hasEntry (s : SchedState) (taskId : String) : Bool :=
  List.any s (fun e => e.1 == taskId)

/-- schedule: cancels any existing entry first, then arms the two deadlines
with delays max(0, greetingSentAt + 5000 - now) and
max(0, greetingSentAt + 30000 - now). -/
def SchedState.schedule (s : SchedState) (taskId : String) (greetingSentAt now : Int) :
    SchedState :=
  let s1 := SchedState.cancel s taskId
  let msUntilPing : Int := max 0 (greetingSentAt + 5000 - now)
  let msUntilInactive : Int := max 0 (greetingSentAt + 30000 - now)
  (taskId, ⟨msUntilPing, msUntilInactive⟩) :: s1

def SchedState.lookup (s : SchedState) (taskId : String) : Option TimerEntry :=
  (List.find? (fun e => e.1 == taskId) s).map (fun e => e.2)

-- ================================
-- flex.tasks.repository.ts
-- ================================

/-- Row of the flex_tasks table (FlexTaskState in the source). -/
structure FlexTaskState where
  task_sid : String
  conversation_sid : Option String := none
  channel_type : Option String := none
  customer_name : Option String := none
  customer_address : Option String := none
  customer_from : Option String := none
  worker_sid : Option String := none
  worker_name : Option String := none
  task_assignment_status : Option String := none
  task_attributes : Option String := none
  greeting_sent_at : Option Int := none
  ping_sent_at : Option Int := none
  inactive_sent_at : Option Int := none
  last_customer_activity_at : Option Int := none
  created_at : Int := 0
  updated_at : Int := 0
  deriving Repr, DecidableEq

/-- flex_tasks plus the flex_tasks_by_conversation reverse lookup table. -/
structure FlexStore where
  tasks : List FlexTaskState := []
  byConversation : List (String × String) := []
  deriving Repr, DecidableEq

namespace FlexTasksRepository

def findByTaskSid (store : FlexStore) (taskSid : String) : Option FlexTaskState :=
  store.tasks.find? (fun t => t.task_sid == taskSid)

/-- findByConversationSid: reverse lookup then point read; a falsy task_sid in
the lookup row yields null. -/
def findByConversationSid (store : FlexStore) (conversationSid : String) :
    Option FlexTaskState :=
  match lookupAssoc store.byConversation conversationSid with
  | none => none
  | some taskSid =>
    if taskSid == "" then none else findByTaskSid store taskSid

/-- Input record of upsertBaseState. -/
structure UpsertInput where
  taskSid : String
  conversationSid : Option String := none
  channelType : Option String := none
  customerName : Option String := none
  customerAddress : Option String := none
  customerFrom : Option String := none
  workerSid : Option String := none
  workerName : Option String := none
  assignmentStatus : Option String := none
  taskAttributes : Option String := none
  deriving Repr, DecidableEq

/-- Replace the row with the given primary key, or append a new one. -/
def putRow (rows : List FlexTaskState) (taskSid : String) (row : FlexTaskState) :
    List FlexTaskState :=
  if rows.any (fun t => t.task_sid == taskSid) then
    rows.map (fun t => if t.task_sid == taskSid then row else t)
  else
    rows ++ [row]

/-- upsertBaseState: INSERT of the base columns of flex_tasks (the epoch
columns greeting/ping/inactive/last_customer_activity are not in the column
list, so a pre-existing row keeps them), created_at preserved from the
existing row, updated_at refreshed; plus the conversation lookup row.  The
second component counts the CQL writes performed. -/
def upsertBaseState (store : FlexStore) (input : UpsertInput) (now : Int) :
    FlexStore × Nat :=
  let existing := findByTaskSid store input.taskSid
  let createdAt := (existing.map (fun e => e.created_at)).getD now
  let newRow : FlexTaskState :=
    { task_sid := input.taskSid
      conversation_sid := input.conversationSid
      channel_type := input.channelType
      customer_name := input.customerName
      customer_address := input.customerAddress
      customer_from := input.customerFrom
      worker_sid := input.workerSid
      worker_name := input.workerName
      task_assignment_status := input.assignmentStatus
      task_attributes := input.taskAttributes
      greeting_sent_at := existing.bind (fun e => e.greeting_sent_at)
      ping_sent_at := existing.bind (fun e => e.ping_sent_at)
      inactive_sent_at := existing.bind (fun e => e.inactive_sent_at)
      last_customer_activity_at := existing.bind (fun e => e.last_customer_activity_at)
      created_at := createdAt
      updated_at := now }
  let tasks2 := putRow store.tasks input.taskSid newRow
  match input.conversationSid with
  | some c =>
    (⟨tasks2, insertAssoc store.byConversation c input.taskSid⟩, 2)
  | none => (⟨tasks2, store.byConversation⟩, 1)

/-- UPDATE flex_tasks applied to the row with the given key (modelled as a
no-op when the row is absent). -/
def updateRow (store : FlexStore) (taskSid : String) (f : FlexTaskState → FlexTaskState) :
    FlexStore :=
  ⟨store.tasks.map (fun t => if t.task_sid == taskSid then f t else t),
   store.byConversation⟩

def setGreetingSent (store : FlexStore) (taskSid : String) (atMs now : Int) : FlexStore :=
  updateRow store taskSid (fun t =>
    { t with
      greeting_sent_at := some atMs
      ping_sent_at := none
      inactive_sent_at := none
      updated_at := now })

def markPingSent (store : FlexStore) (taskSid : String) (atMs now : Int) : FlexStore :=
  updateRow store taskSid (fun t => { t with ping_sent_at := some atMs, updated_at := now })

def markInactiveSent (store : FlexStore) (taskSid : String) (atMs now : Int) : FlexStore :=
  updateRow store taskSid (fun t => { t with inactive_sent_at := some atMs, updated_at := now })

def markCustomerActivity (store : FlexStore) (taskSid : String) (atMs now : Int) : FlexStore :=
  updateRow store taskSid (fun t =>
    { t with last_customer_activity_at := some atMs, updated_at := now })

end FlexTasksRepository

-- ================================
-- Provider data (TaskRouter / Conversations) as seen by the service
-- ================================

/-- Parsed view of a JSON attributes object, restricted to the fields the
service reads (absent or non-string fields are none; a failed JSON.parse
yields the empty record). -/
structure ParsedAttrs where
  workerSid : Option String := none
  worker_sid : Option String := none
  worker_id : Option String := none
  workerId : Option String := none
  deriving Repr, DecidableEq

/-- pickWorkerSidFromAttributes: first of workerSid, worker_sid, worker_id,
workerId that is a string with non-empty trim, trimmed. -/
def pickWorkerSidFromAttributes (a : ParsedAttrs) : Option String :=
  firstNonEmptyTrim [a.workerSid, a.worker_sid, a.worker_id, a.workerId]

/-- A conversation participant as returned by the provider: identity (none
when not a string), the raw attributes string, its parsed view, and the
messaging binding address. -/
structure Participant where
  identity : Option String := none
  attributesRaw : Option String := none
  attrs : ParsedAttrs := {}
  bindingAddress : Option String := none
  deriving Repr, DecidableEq

/-- Parsed view of worker attributes for resolveWorkerDisplayName. -/
structure WorkerAttrs where
  full_name : Option String := none
  fullName : Option String := none
  fullname : Option String := none
  name : Option String := none
  deriving Repr, DecidableEq

/-- pickWorkerNameFromAttributes. -/
def pickWorkerNameFromAttributes (a : WorkerAttrs) : Option String :=
  firstNonEmptyTrim [a.full_name, a.fullName, a.fullname, a.name]

/-- Result of a successful FetchWorker call. -/
structure WorkerInfo where
  attrs : WorkerAttrs := {}
  friendlyName : Option String := none
  deriving Repr, DecidableEq

/-- Parsed view of the task attributes JSON that the flex pipeline reads. -/
structure TaskAttrs where
  conversationSid : Option String := none
  channelType : Option String := none
  customerAddress : Option String := none
  fromField : Option String := none
  customersName : Option String := none
  friendlyName : Option String := none
  deriving Repr, DecidableEq

/-- pickCustomerName: customers.name, then friendlyName, then from, each
trimmed when a non-empty string, else the literal cliente. -/
def pickCustomerName (attrs : TaskAttrs) : String :=
  match firstNonEmptyTrim [attrs.customersName, attrs.friendlyName, attrs.fromField] with
  | some s => s
  | none => "cliente"

/-- The reservation fields the pipeline reads: workerName (none when not a
string) and workerSid (empty string when falsy). -/
structure Reservation where
  workerName : Option String := none
  workerSid : String := ""
  deriving Repr, DecidableEq

/-- One provider task together with the remote data the pipeline fetches for
it: the first accepted reservation (none when the list is empty), the
conversation participants, and the FetchWorker result (none when the call
fails). -/
structure ProviderTask where
  sid : String
  attributesRaw : String := "{}"
  attrs : TaskAttrs := {}
  assignmentStatus : String := "assigned"
  acceptedReservation : Option Reservation := none
  participants : List Participant := []
  workerFetch : Option WorkerInfo := none
  deriving Repr, DecidableEq

/-- Environment of the flex pipeline: provider configuration and remote
responses, plus the relevant environment variables. -/
structure FlexEnv where
  clientConfigured : Bool := true
  configuredWorkspaceSid : Option String := none
  workspaces : List (String × Option String) := []
  pollLimit : Nat := 50
  tasks : List ProviderTask := []
  convSendOk : String → Bool := fun _ => true
  automationAuthorRaw : Option String := none

/-- getAutomationAuthor: TASKS_AUTOMATION_AUTHOR || System. -/
def getAutomationAuthor (raw : Option String) : String :=
  match raw with
  | some s => if s == "" then "System" else s
  | none => "System"

/-- resolveWorkspaceSid: configured sid wins; otherwise a single workspace, or
a single workspace whose friendly name contains flex; otherwise unresolved. -/
def resolveWorkspaceSid (env : FlexEnv) : Option String :=
  match env.configuredWorkspaceSid with
  | some c => some c
  | none =>
    if env.workspaces.length == 1 then
      (env.workspaces.head?).map (fun w => w.1)
    else
      let flexCandidates := env.workspaces.filter
        (fun w => jsIncludes (jsLower (w.2.getD "")) "flex")
      if flexCandidates.length == 1 then
        flexCandidates.head?.map (fun w => w.1)
      else none

-- ================================
-- resolveWorkerParticipantIdentity (tasks.service.ts lines 353 to 448)
-- ================================

/-- Trimmed identity of a participant, empty when not a string. -/
def identityOf (p : Participant) : String :=
  jsTrim (p.identity.getD "")

/-- Customer markers: normalized customerAddress and customerFrom hints with
empty values dropped. -/
def customerMarkers (customerAddress customerFrom : Option String) : List String :=
  ([customerAddress, customerFrom].map normJs).filter (fun m => !(m == ""))

/-- isCustomerParticipant: identity or messaging binding address among the
customer markers. -/
def isCustomerParticipant (markers : List String) (p : Participant) : Bool :=
  (let idn := normJs p.identity
   (!(idn == "")) && markers.contains idn) ||
  (let b := normJs p.bindingAddress
   (!(b == "")) && markers.contains b)

/-- Rule 1: participant whose identity equals the worker sid after trim and
case fold. -/
def ruleIdentityEqWorkerSid (participants : List Participant) (nSid : String)
    (hasSid : Bool) : Option String :=
  participants.findSome? (fun p =>
    let i := identityOf p
    if (!(i == "")) && hasSid && (normJs (some i) == nSid) then some i else none)

/-- Rule 2: participant whose identity equals the worker name after trim and
case fold (only tried when the normalized worker name is non-empty). -/
def ruleIdentityEqWorkerName (participants : List Participant) (nName : String) :
    Option String :=
  if !(nName == "") then
    participants.findSome? (fun p =>
      let i := identityOf p
      if (!(i == "")) && (normJs (some i) == nName) then some i else none)
  else none

/-- Rule 3: participant whose parsed JSON attributes carry a worker sid field
equal to the worker sid (only tried when the worker sid is known). -/
def ruleAttrsWorkerSid (participants : List Participant) (nSid : String)
    (hasSid : Bool) : Option String :=
  if hasSid then
    participants.findSome? (fun p =>
      let i := identityOf p
      if !(i == "") then
        match pickWorkerSidFromAttributes p.attrs with
        | some sidFromAttrs =>
          if normJs (some sidFromAttrs) == nSid then some i else none
        | none => none
      else none)
  else none

/-- Rule 4: participant whose raw attributes string contains the worker sid
value as a substring (only tried when the worker sid is known). -/
def ruleRawAttrsContains (participants : List Participant) (sidValue : String)
    (hasSid : Bool) : Option String :=
  if hasSid then
    participants.findSome? (fun p =>
      let i := identityOf p
      if !(i == "") then
        match p.attributesRaw with
        | some raw => if jsIncludes raw sidValue then some i else none
        | none => none
      else none)
  else none

/-- Identities of participants that are not classified as customers. -/
def nonCustomerCandidates (participants : List Participant) (markers : List String) :
    List String :=
  participants.filterMap (fun p =>
    let i := identityOf p
    if (!(i == "")) && (!(isCustomerParticipant markers p)) then some i else none)

/-- Rule 5: the sole non-customer candidate, when exactly one exists. -/
def ruleSoleNonCustomer (participants : List Participant) (markers : List String) :
    Option String :=
  let candidates := nonCustomerCandidates participants markers
  if candidates.length == 1 then candidates.head? else none

/-- resolveWorkerParticipantIdentity: the five rules in priority order. -/
def resolveWorkerParticipantIdentity (participants : List Participant)
    (workerSid : Option String)
    (hintWorkerName hintCustomerAddress hintCustomerFrom : Option String) :
    Option String :=
  let nSid := normJs workerSid
  let nName := normJs hintWorkerName
  let hasSid := !(nSid == "")
  let sidValue := workerSid.getD ""
  let markers := customerMarkers hintCustomerAddress hintCustomerFrom
  (((ruleIdentityEqWorkerSid participants nSid hasSid).or
    (ruleIdentityEqWorkerName participants nName)).or
    ((ruleAttrsWorkerSid participants nSid hasSid).or
     (ruleRawAttrsContains participants sidValue hasSid))).or
    (ruleSoleNonCustomer participants markers)

-- ================================
-- resolveWorkerDisplayName (tasks.service.ts lines 450 to 485)
-- ================================

/-- resolveWorkerDisplayName: fallback normalization, cache hit, then the
FetchWorker result (attributes name, friendly name, fallback), caching what
was resolved (the fallback on fetch failure). -/
def resolveWorkerDisplayName (cache : List (String × String))
    (workerSid : Option String) (fallbackName : String)
    (fetch : Option WorkerInfo) : String × List (String × String) :=
  let fallback := if jsTrim fallbackName == "" then "Atendente" else jsTrim fallbackName
  match workerSid with
  | none => (fallback, cache)
  | some ws =>
    if jsTrim ws == "" then (fallback, cache)
    else
      match lookupAssoc cache ws with
      | some cached =>
        if ¬ (cached == "") then (cached, cache)
        else
          match fetch with
          | none => (fallback, insertAssoc cache ws fallback)
          | some w =>
            let resolved :=
              match pickWorkerNameFromAttributes w.attrs with
              | some fromAttrs => fromAttrs
              | none =>
                match w.friendlyName with
                | some f => if ¬ (jsTrim f == "") then jsTrim f else fallback
                | none => fallback
            (resolved, insertAssoc cache ws resolved)
      | none =>
        match fetch with
        | none => (fallback, insertAssoc cache ws fallback)
        | some w =>
          let resolved :=
            match pickWorkerNameFromAttributes w.attrs with
            | some fromAttrs => fromAttrs
            | none =>
              match w.friendlyName with
              | some f => if ¬ (jsTrim f == "") then jsTrim f else fallback
              | none => fallback
          (resolved, insertAssoc cache ws resolved)

-- ================================
-- TasksService state and outbound messages
-- ================================

/-- An SMS send attempt (sendSMS recipient and body). -/
structure SmsMsg where
  toContact : String
  body : String
  deriving Repr, DecidableEq

/-- A conversation message post (sendConversationMessage). -/
structure ConvMsg where
  conversationSid : String
  author : String
  body : String
  deriving Repr, DecidableEq

/-- Process-wide state the orchestrator touches: the two persistence tables,
the scheduler map, the worker-name cache, the warn-once set for missing
worker participants, the log of outbound message attempts, and a counter of
persistence writes. -/
structure SvcState where
  tasks : List TaskRow := []
  flex : FlexStore := {}
  sched : SchedState := []
  cache : List (String × String) := []
  warned : List String := []
  sms : List SmsMsg := []
  conv : List ConvMsg := []
  writes : Nat := 0
  deriving Repr, DecidableEq

/-- scheduleInternalInactivityTimers: requires a greeting timestamp, skips
when an entry already exists, otherwise arms the pair anchored at the
greeting. -/
def scheduleInternalInactivityTimers (sched : SchedState) (t : TaskRow) (now : Int) :
    SchedState :=
  match t.greeting_sent_at with
  | none => sched
  | some g =>
    if sched.hasEntry t.id then sched
    else sched.schedule t.id g now

-- ================================
-- Internal pipeline (tasks.service.ts lines 75 to 246)
-- ================================

/-- One iteration of the loop body of autoProcessInternalAssignedTasks for
the snapshot row t.  smsOk is the outcome of the sendSMS call. -/
def internalStep (smsOk : Bool) (now : Int) (s : SvcState) (t : TaskRow) : SvcState :=
  if ¬ (t.status == "assigned") then s
  else if t.operator_id.isNone || t.operator_name.isNone then s
  else
    match t.greeting_sent_at with
    | some g =>
      if (match t.last_customer_activity_at with
          | some la => decide (g < la)
          | none => false) then
        { s with sched := s.sched.cancel t.id }
      else if t.inactive_sent_at.isSome then
        { s with sched := s.sched.cancel t.id }
      else
        { s with sched := scheduleInternalInactivityTimers s.sched t now }
    | none =>
      let msg : SmsMsg :=
        ⟨t.customer_contact, operatorHandoffMessage t.customer_name (t.operator_name.getD "")⟩
      let s1 := { s with sms := s.sms ++ [msg] }
      if ¬ smsOk then s1
      else
        match TasksRepository.setGreetingSent s1.tasks t.id now now with
        | none => s1
        | some (tasks2, updated) =>
          { s1 with
            tasks := tasks2
            writes := s1.writes + 1
            sched := scheduleInternalInactivityTimers s1.sched updated now }

/-- autoProcessInternalAssignedTasks: findByStatus assigned (batch limit),
then the loop above over the snapshot. -/
def autoProcessInternalAssignedTasks (s : SvcState) (batch : Nat) (smsOk : Bool)
    (now : Int) : SvcState :=
  (TasksRepository.findByStatus s.tasks "assigned" batch).foldl (internalStep smsOk now) s

/-- sendInternalPingIfInactive (the ping timer callback). -/
def sendInternalPingIfInactive (s : SvcState) (taskId : String) (smsOk : Bool)
    (now : Int) : SvcState :=
  match TasksRepository.findById s.tasks taskId with
  | none => s
  | some task =>
    if ¬ (task.status == "assigned") then s
    else
      match task.greeting_sent_at with
      | none => s
      | some g =>
        if task.ping_sent_at.isSome then s
        else if (match task.last_customer_activity_at with
                 | some la => decide (g < la)
                 | none => false) then s
        else
          let msg : SmsMsg := ⟨task.customer_contact, stillInChatMessage task.customer_name⟩
          let s1 := { s with sms := s.sms ++ [msg] }
          if ¬ smsOk then s1
          else
            match TasksRepository.markPingSent s1.tasks taskId now now with
            | none => s1
            | some (tasks2, _) => { s1 with tasks := tasks2, writes := s1.writes + 1 }

/-- sendInternalInactiveAndClose (the inactivity timer callback). -/
def sendInternalInactiveAndClose (s : SvcState) (taskId : String) (smsOk : Bool)
    (now : Int) : SvcState :=
  match TasksRepository.findById s.tasks taskId with
  | none => s
  | some task =>
    if ¬ (task.status == "assigned") then s
    else
      match task.greeting_sent_at with
      | none => s
      | some g =>
        if task.inactive_sent_at.isSome then s
        else if (match task.last_customer_activity_at with
                 | some la => decide (g < la)
                 | none => false) then s
        else
          let msg : SmsMsg := ⟨task.customer_contact, inactivityCloseMessage task.customer_name⟩
          let s1 := { s with sms := s.sms ++ [msg] }
          if ¬ smsOk then s1
          else
            match TasksRepository.closeDueToInactivity s1.tasks taskId now now with
            | none => s1
            | some (tasks2, _) =>
              { s1 with
                tasks := tasks2
                writes := s1.writes + 1
                sched := s1.sched.cancel taskId }

/-- TasksService.assign: repository assignToOperator, Task not found when the
row does not exist. -/
def assignService (s : SvcState) (taskId opId opName : String) (now : Int) :
    SvcState × Except String TaskRow :=
  match TasksRepository.assignToOperator s.tasks taskId opId opName now with
  | none => (s, Except.error "Task not found")
  | some (tasks2, updated) =>
    ({ s with tasks := tasks2, writes := s.writes + 1 }, Except.ok updated)

/-- TasksService.startOperatorHandoff. -/
def startOperatorHandoff (s : SvcState) (taskId opId opName : String)
    (sendGreeting : Bool) (smsOk : Bool) (now : Int) :
    SvcState × Except String TaskRow :=
  match assignService s taskId opId opName now with
  | (s1, Except.error e) => (s1, Except.error e)
  | (s1, Except.ok assigned) =>
    let afterSend :
        SvcState × Except String Unit :=
      if sendGreeting then
        let msg : SmsMsg :=
          ⟨assigned.customer_contact, operatorHandoffMessage assigned.customer_name opName⟩
        let s2 := { s1 with sms := s1.sms ++ [msg] }
        if smsOk then (s2, Except.ok ())
        else (s2, Except.error "Failed to send operator handoff message")
      else (s1, Except.ok ())
    match afterSend with
    | (s2, Except.error e) => (s2, Except.error e)
    | (s2, Except.ok _) =>
      match TasksRepository.setGreetingSent s2.tasks taskId now now with
      | none => (s2, Except.error "Task not found")
      | some (tasks2, updated) =>
        ({ s2 with
           tasks := tasks2
           writes := s2.writes + 1
           sched := scheduleInternalInactivityTimers s2.sched updated now },
         Except.ok updated)

/-- TasksService.markCustomerActivity: repository write then cancel. -/
def markCustomerActivityService (s : SvcState) (taskId : String) (now : Int) :
    SvcState × Except String TaskRow :=
  match TasksRepository.markCustomerActivity s.tasks taskId now now with
  | none => (s, Except.error "Task not found")
  | some (tasks2, updated) =>
    ({ s with
       tasks := tasks2
       writes := s.writes + 1
       sched := s.sched.cancel taskId },
     Except.ok updated)

-- ================================
-- Flex pipeline (tasks.service.ts lines 560 to 722)
-- ================================

/-- scheduleFlexInactivityTimers: skip when an entry exists, else arm. -/
def scheduleFlexInactivityTimers (sched : SchedState) (taskSid : String)
    (greetingSentAt now : Int) : SchedState :=
  if sched.hasEntry taskSid then sched
  else sched.schedule taskSid greetingSentAt now

/-- The author of sendConversationMessage: trimmed author when truthy, else
the automation author. -/
def effectiveAuthor (author : Option String) (automationAuthor : String) : String :=
  let t := jsTrim (author.getD "")
  if t == "" then automationAuthor else t

/-- Worker name selection of the flex loop: stored name when truthy, with a
re-resolve when it is only a fallback; otherwise resolveWorkerDisplayName or
the reservation fallback. -/
def selectWorkerName (cache : List (String × String))
    (storedWorkerName : Option String) (workerSid : Option String)
    (fallbackWorkerName : String) (fetch : Option WorkerInfo) :
    String × List (String × String) :=
  match storedWorkerName with
  | some swn =>
    if swn == "" then
      match workerSid with
      | some _ => resolveWorkerDisplayName cache workerSid fallbackWorkerName fetch
      | none => (fallbackWorkerName, cache)
    else if workerSid.isSome && (swn == "Atendente" || swn == fallbackWorkerName) then
      resolveWorkerDisplayName cache workerSid fallbackWorkerName fetch
    else (swn, cache)
  | none =>
    match workerSid with
    | some _ => resolveWorkerDisplayName cache workerSid fallbackWorkerName fetch
    | none => (fallbackWorkerName, cache)

/-- One iteration of the loop body of autoProcessFlexAssignedTasks. -/
def processFlexTask (env : FlexEnv) (now : Int) (s : SvcState) (pt : ProviderTask) :
    SvcState :=
  let attrs := pt.attrs
  match attrs.conversationSid with
  | none => s
  | some conversationSid =>
    if ¬ jsStartsWith conversationSid "CH" then s
    else
      match pt.acceptedReservation with
      | none => s
      | some reservation =>
        let fallbackWorkerName :=
          match reservation.workerName with
          | some wn => if ¬ (jsTrim wn == "") then jsTrim wn else "Atendente"
          | none => "Atendente"
        let workerSid : Option String :=
          if reservation.workerSid == "" then none else some reservation.workerSid
        let channelType := attrs.channelType
        let customerAddress := attrs.customerAddress
        let customerFrom := attrs.fromField
        let customerName := pickCustomerName attrs
        let existingState := FlexTasksRepository.findByTaskSid s.flex pt.sid
        let storedWorkerName := (existingState.bind (fun e => e.worker_name)).map jsTrim
        let wnc := selectWorkerName s.cache storedWorkerName workerSid fallbackWorkerName
          pt.workerFetch
        let workerName := wnc.1
        let s0 := { s with cache := wnc.2 }
        let up := FlexTasksRepository.upsertBaseState s0.flex
          { taskSid := pt.sid
            conversationSid := some conversationSid
            channelType := channelType
            customerName := some customerName
            customerAddress := customerAddress
            customerFrom := customerFrom
            workerSid := workerSid
            workerName := some workerName
            assignmentStatus := some pt.assignmentStatus
            taskAttributes := some pt.attributesRaw } now
        let s1 := { s0 with flex := up.1, writes := s0.writes + up.2 }
        match existingState.bind (fun es => es.greeting_sent_at.map (fun g => (es, g))) with
        | some (es, g) =>
          if (match es.last_customer_activity_at with
              | some la => decide (g < la)
              | none => false) then
            { s1 with sched := s1.sched.cancel pt.sid }
          else if es.inactive_sent_at.isSome then
            { s1 with sched := s1.sched.cancel pt.sid }
          else
            { s1 with sched := scheduleFlexInactivityTimers s1.sched pt.sid g now }
        | none =>
          let workerIdentity := resolveWorkerParticipantIdentity pt.participants workerSid
            (some workerName) customerAddress customerFrom
          match workerIdentity with
          | none =>
            if s1.warned.contains pt.sid then s1
            else { s1 with warned := pt.sid :: s1.warned }
          | some wid =>
            let s2 := { s1 with warned := s1.warned.erase pt.sid }
            let author := effectiveAuthor (some wid)
              (getAutomationAuthor env.automationAuthorRaw)
            let msg : ConvMsg :=
              ⟨conversationSid, author, operatorHandoffMessage customerName workerName⟩
            let s3 := { s2 with conv := s2.conv ++ [msg] }
            if ¬ (env.clientConfigured && env.convSendOk conversationSid) then s3
            else
              let flex2 := FlexTasksRepository.setGreetingSent s3.flex pt.sid now now
              { s3 with
                flex := flex2
                writes := s3.writes + 1
                sched := scheduleFlexInactivityTimers s3.sched pt.sid now now }

/-- autoProcessFlexAssignedTasks: false when the client is not configured or
no workspace resolves; otherwise process the polled tasks and return true. -/
def autoProcessFlexAssignedTasks (env : FlexEnv) (s : SvcState) (now : Int) :
    SvcState × Bool :=
  if ¬ env.clientConfigured then (s, false)
  else
    match resolveWorkspaceSid env with
    | none => (s, false)
    | some _ =>
      ((env.tasks.take env.pollLimit).foldl (processFlexTask env now) s, true)

/-- TASKS_AUTO_SOURCE normalization: empty or missing means auto, then
lowercased. -/
def normalizeSource (raw : Option String) : String :=
  let r := raw.getD ""
  jsLower (if r == "" then "auto" else r)

/-- autoProcessAssignedTasks: flex first unless the source is internal; stop
when flex reports work or the source is flex; otherwise run the internal
pipeline.  The Bool results are (flex reported work, internal pipeline ran). -/
def autoProcessAssignedTasks (env : FlexEnv) (sourceRaw : Option String)
    (batch : Nat) (smsOk : Bool) (s : SvcState) (now : Int) :
    SvcState × Bool × Bool :=
  let source := normalizeSource sourceRaw
  if source == "internal" then
    (autoProcessInternalAssignedTasks s batch smsOk now, false, true)
  else
    let fr := autoProcessFlexAssignedTasks env s now
    if fr.2 || source == "flex" then (fr.1, fr.2, false)
    else (autoProcessInternalAssignedTasks fr.1 batch smsOk now, fr.2, true)

-- ================================
-- Customer-activity sinks (tasks.service.ts lines 175 to 194, 688 to 713)
-- ================================

/-- markFlexCustomerActivityByConversationSid. -/
def markFlexCustomerActivityByConversationSid (s : SvcState) (conversationSid : String)
    (author : Option String) (automationAuthorRaw : Option String) (now : Int) :
    SvcState :=
  let trimmedAuthor := jsTrim (author.getD "")
  if trimmedAuthor == "" then s
  else
    match FlexTasksRepository.findByConversationSid s.flex conversationSid with
    | none => s
    | some state =>
      let customerAddress := state.customer_address.map jsTrim
      let customerFrom := state.customer_from.map jsTrim
      let hasKnownCustomer :=
        (!((customerAddress.getD "") == "")) || (!((customerFrom.getD "") == ""))
      let ignored : Bool :=
        if hasKnownCustomer then
          (!(customerAddress == some trimmedAuthor)) &&
          (!(customerFrom == some trimmedAuthor))
        else
          (trimmedAuthor == getAutomationAuthor automationAuthorRaw) ||
          (match state.worker_name with
           | some wn => (!(wn == "")) && trimmedAuthor == wn
           | none => false) ||
          (match state.worker_sid with
           | some ws => (!(ws == "")) && trimmedAuthor == ws
           | none => false)
      if ignored then s
      else
        { s with
          flex := FlexTasksRepository.markCustomerActivity s.flex state.task_sid now now
          writes := s.writes + 1
          sched := s.sched.cancel state.task_sid }

-- ================================
-- Helper lemmas
-- ================================

theorem find?_map_ite {α : Type} (p : α → Bool) (f : α → α)
    (hp : ∀ a, p a = true → p (f a) = true) (l : List α) :
    (l.map (fun a => if p a then f a else a)).find? p = (l.find? p).map f := by
  induction l with
  | nil => rfl
  | cons x xs ih =>
    by_cases hx : p x = true
    · simp [List.find?, hx, hp x hx]
    · have hx' : p x = false := by simpa using hx
      simp [List.find?, hx', ih]

theorem findById_updateTask (store : List TaskRow) (id : String) (f : TaskRow → TaskRow)
    (hf : ∀ t, (f t).id = t.id) :
    TasksRepository.findById (TasksRepository.updateTask store id f) id
      = (TasksRepository.findById store id).map f := by
  unfold TasksRepository.findById TasksRepository.updateTask
  refine find?_map_ite (fun t => t.id == id) f ?_ store
  intro a ha
  simpa [hf a] using ha

theorem findRow_updateRow (store : FlexStore) (sid : String)
    (f : FlexTaskState → FlexTaskState) (hf : ∀ t, (f t).task_sid = t.task_sid) :
    FlexTasksRepository.findByTaskSid (FlexTasksRepository.updateRow store sid f) sid
      = (FlexTasksRepository.findByTaskSid store sid).map f := by
  unfold FlexTasksRepository.findByTaskSid FlexTasksRepository.updateRow
  refine find?_map_ite (fun t => t.task_sid == sid) f ?_ store.tasks
  intro a ha
  simpa [hf a] using ha
/-- C3: Schedule(taskId, g, ...) arms the ping deadline at delay
max(0, g + 5000 - now) and the inactive deadline at delay
max(0, g + 30000 - now); a greeting 5s or more in the past yields an
immediate ping (delay 0); an existing entry for taskId is cancelled, so the
result holds exactly the freshly armed pair for taskId, while entries of
other ids survive. -/
theorem schedule_arms_maxed_delays_and_replaces (s : SchedState) (taskId : String)
    (g now : Int) :
    (SchedState.schedule s taskId g now).lookup taskId
        = some ⟨max 0 (g + 5000 - now), max 0 (g + 30000 - now)⟩
    ∧ (∀ e ∈ SchedState.schedule s taskId g now, e.1 = taskId →
        e.2 = ⟨max 0 (g + 5000 - now), max 0 (g + 30000 - now)⟩)
    ∧ (g + 5000 ≤ now →
        (SchedState.schedule s taskId g now).lookup taskId
          = some ⟨0, max 0 (g + 30000 - now)⟩)
    ∧ (∀ e ∈ s, e.1 ≠ taskId → e ∈ SchedState.schedule s taskId g now) := by
  refine ⟨?_, ?_, ?_, ?_⟩
  · simp [SchedState.schedule, SchedState.lookup, List.find?]
  · intro e he h1
    simp only [SchedState.schedule, List.mem_cons] at he
    rcases he with he | he
    · rw [he]
    · exfalso
      have := List.of_mem_filter he
      simp [h1] at this
  · intro hle
    have h0 : max (0:Int) (g + 5000 - now) = 0 := by
      apply max_eq_left
      omega
    simpa [h0] using
      (show (SchedState.schedule s taskId g now).lookup taskId
          = some ⟨max 0 (g + 5000 - now), max 0 (g + 30000 - now)⟩ by
        simp [SchedState.schedule, SchedState.lookup, List.find?])
  · intro e he hne
    simp only [SchedState.schedule, List.mem_cons]
    right
    exact List.mem_filter.mpr ⟨he, by simpa using hne⟩

/-- Witness for C3 at a concrete overdue greeting. -/
theorem schedule_arms_witness :
    ((0:Int) + 5000 ≤ 99999)
    ∧ (SchedState.schedule [] "t1" 0 99999).lookup "t1"
        = some ⟨0, max 0 (0 + 30000 - 99999)⟩ :=
  ⟨by norm_num,
   (schedule_arms_maxed_delays_and_replaces [] "t1" 0 99999).2.2.1 (by norm_num)⟩
/-- C5: setGreetingSent writes greeting_sent_at and, in the same write,
resets ping_sent_at and inactive_sent_at to null, for internal tasks and for
flex tasks alike. -/
theorem setGreetingSent_resets_epoch_marks
    (store : List TaskRow) (id : String) (atMs now : Int) (t : TaskRow)
    (h : TasksRepository.findById store id = some t)
    (fs : FlexStore) (sid : String) (fatMs fnow : Int) (ft : FlexTaskState)
    (hf : FlexTasksRepository.findByTaskSid fs sid = some ft) :
    (∃ store2 r, TasksRepository.setGreetingSent store id atMs now = some (store2, r)
       ∧ TasksRepository.findById store2 id = some r
       ∧ r.greeting_sent_at = some atMs
       ∧ r.ping_sent_at = none
       ∧ r.inactive_sent_at = none)
    ∧ (∃ fr, FlexTasksRepository.findByTaskSid
          (FlexTasksRepository.setGreetingSent fs sid fatMs fnow) sid = some fr
       ∧ fr.greeting_sent_at = some fatMs
       ∧ fr.ping_sent_at = none
       ∧ fr.inactive_sent_at = none) := by
  constructor
  · have h2 := findById_updateTask store id
      (fun u => { u with greeting_sent_at := some atMs, ping_sent_at := none,
                         inactive_sent_at := none, updated_at := now })
      (fun _ => rfl)
    rw [h] at h2
    refine ⟨TasksRepository.updateTask store id
              (fun u => { u with greeting_sent_at := some atMs, ping_sent_at := none,
                                 inactive_sent_at := none, updated_at := now }),
            { t with greeting_sent_at := some atMs, ping_sent_at := none,
                     inactive_sent_at := none, updated_at := now },
            ?_, ?_, rfl, rfl, rfl⟩
    · unfold TasksRepository.setGreetingSent
      rw [h]
      simp [h2]
    · exact h2
  · have h2 := findRow_updateRow fs sid
      (fun u => { u with greeting_sent_at := some fatMs, ping_sent_at := none,
                         inactive_sent_at := none, updated_at := fnow })
      (fun _ => rfl)
    rw [hf] at h2
    refine ⟨{ ft with greeting_sent_at := some fatMs, ping_sent_at := none,
                      inactive_sent_at := none, updated_at := fnow },
            ?_, rfl, rfl, rfl⟩
    unfold FlexTasksRepository.setGreetingSent
    exact h2

/-- Witness for C5 at a one-row store on each side. -/
theorem setGreetingSent_resets_witness :
    (TasksRepository.findById [{ id := "a" : TaskRow }] "a" = some { id := "a" })
    ∧ (FlexTasksRepository.findByTaskSid ⟨[{ task_sid := "w" }], []⟩ "w"
        = some { task_sid := "w" })
    ∧ (∃ store2 r, TasksRepository.setGreetingSent [{ id := "a" : TaskRow }] "a" 5 5
         = some (store2, r)
       ∧ TasksRepository.findById store2 "a" = some r
       ∧ r.greeting_sent_at = some 5
       ∧ r.ping_sent_at = none
       ∧ r.inactive_sent_at = none) :=
  ⟨by decide, by decide,
   (setGreetingSent_resets_epoch_marks [{ id := "a" }] "a" 5 5 { id := "a" } (by decide)
     ⟨[{ task_sid := "w" }], []⟩ "w" 7 7 { task_sid := "w" } (by decide)).1⟩
/-- C9: assignToOperator sets assigned_at only on the first assignment: a
task that already has assigned_at keeps that value while operator_id,
operator_name, status and updated_at are still updated; and the value also
survives a startOperatorHandoff. -/
theorem assignToOperator_preserves_assignedAt
    (s : SvcState) (id opId opName : String) (now : Int) (t : TaskRow)
    (h : TasksRepository.findById s.tasks id = some t) :
    (∃ store2 r, TasksRepository.assignToOperator s.tasks id opId opName now
        = some (store2, r)
       ∧ TasksRepository.findById store2 id = some r
       ∧ (∀ a, t.assigned_at = some a → r.assigned_at = some a)
       ∧ (t.assigned_at = none → r.assigned_at = some now)
       ∧ r.operator_id = some opId ∧ r.operator_name = some opName
       ∧ r.status = "assigned" ∧ r.updated_at = now)
    ∧ (∀ a, t.assigned_at = some a → ∀ sendGreeting r2,
        (startOperatorHandoff s id opId opName sendGreeting true now).2 = Except.ok r2 →
        r2.assigned_at = some a) := by
  have h2 := findById_updateTask s.tasks id
    (fun u => { u with operator_id := some opId, operator_name := some opName,
                       status := "assigned",
                       assigned_at := some (t.assigned_at.getD now), updated_at := now })
    (fun _ => rfl)
  rw [h] at h2
  have hassign : TasksRepository.assignToOperator s.tasks id opId opName now
      = some (TasksRepository.updateTask s.tasks id
          (fun u => { u with operator_id := some opId, operator_name := some opName,
                             status := "assigned",
                             assigned_at := some (t.assigned_at.getD now), updated_at := now }),
        { t with operator_id := some opId, operator_name := some opName,
                 status := "assigned",
                 assigned_at := some (t.assigned_at.getD now), updated_at := now }) := by
    unfold TasksRepository.assignToOperator
    rw [h]
    simp [h2]
  constructor
  · refine ⟨_, _, hassign, h2, ?_, ?_, rfl, rfl, rfl, rfl⟩
    · intro a ha
      simp [ha]
    · intro ha
      simp [ha]
  · intro a ha sendGreeting r2 hr2
    have h3 := findById_updateTask
      (TasksRepository.updateTask s.tasks id
        (fun u => { u with operator_id := some opId, operator_name := some opName,
                           status := "assigned",
                           assigned_at := some (t.assigned_at.getD now), updated_at := now }))
      id
      (fun u => { u with greeting_sent_at := some now, ping_sent_at := none,
                         inactive_sent_at := none, updated_at := now })
      (fun _ => rfl)
    rw [h2] at h3
    unfold startOperatorHandoff assignService TasksRepository.setGreetingSent at hr2
    rw [hassign] at hr2
    cases sendGreeting <;>
      · simp [h2, h3, Except.ok.injEq] at hr2
        rw [← hr2]
        simp [ha]

/-- Witness for C9: a task assigned at 3 keeps assigned_at = 3 on re-assign. -/
theorem assignToOperator_preserves_witness :
    (TasksRepository.findById [{ id := "a", assigned_at := some 3 : TaskRow }] "a"
      = some { id := "a", assigned_at := some 3 })
    ∧ (∃ store2 r,
        TasksRepository.assignToOperator [{ id := "a", assigned_at := some 3 : TaskRow }]
          "a" "op1" "Bia" 9 = some (store2, r)
        ∧ TasksRepository.findById store2 "a" = some r
        ∧ (∀ b, ({ id := "a", assigned_at := some 3 : TaskRow }).assigned_at = some b →
             r.assigned_at = some b)
        ∧ (({ id := "a", assigned_at := some 3 : TaskRow }).assigned_at = none →
             r.assigned_at = some 9)
        ∧ r.operator_id = some "op1" ∧ r.operator_name = some "Bia"
        ∧ r.status = "assigned" ∧ r.updated_at = 9) :=
  ⟨by decide,
   (assignToOperator_preserves_assignedAt { tasks := [{ id := "a", assigned_at := some 3 }] }
      "a" "op1" "Bia" 9 { id := "a", assigned_at := some 3 } (by decide)).1⟩
/-- C10: assign succeeds for every existing task regardless of status,
flipping status back to assigned without clearing closed_at, close_reason or
the epoch marks; it returns Task not found exactly when no task with the id
exists, leaving the store unchanged in that case. -/
theorem assign_any_status_and_not_found
    (s : SvcState) (id opId opName : String) (now : Int) :
    (∀ t, TasksRepository.findById s.tasks id = some t →
      ∃ s2 r, assignService s id opId opName now = (s2, Except.ok r)
        ∧ r.status = "assigned"
        ∧ r.closed_at = t.closed_at
        ∧ r.close_reason = t.close_reason
        ∧ r.greeting_sent_at = t.greeting_sent_at
        ∧ r.ping_sent_at = t.ping_sent_at
        ∧ r.inactive_sent_at = t.inactive_sent_at
        ∧ r.last_customer_activity_at = t.last_customer_activity_at)
    ∧ (TasksRepository.findById s.tasks id = none →
        assignService s id opId opName now = (s, Except.error "Task not found")) := by
  constructor
  · intro t h
    have h2 := findById_updateTask s.tasks id
      (fun u => { u with operator_id := some opId, operator_name := some opName,
                         status := "assigned",
                         assigned_at := some (t.assigned_at.getD now), updated_at := now })
      (fun _ => rfl)
    rw [h] at h2
    refine ⟨{ s with
              tasks := TasksRepository.updateTask s.tasks id
                (fun u => { u with operator_id := some opId, operator_name := some opName,
                                   status := "assigned",
                                   assigned_at := some (t.assigned_at.getD now),
                                   updated_at := now })
              writes := s.writes + 1 },
            { t with operator_id := some opId, operator_name := some opName,
                     status := "assigned",
                     assigned_at := some (t.assigned_at.getD now), updated_at := now },
            ?_, rfl, rfl, rfl, rfl, rfl, rfl, rfl⟩
    unfold assignService TasksRepository.assignToOperator
    rw [h]
    simp [h2]
  · intro h
    unfold assignService TasksRepository.assignToOperator
    rw [h]

/-- Witness for C10: re-assigning a closed task succeeds and keeps closed_at,
close_reason and the epoch marks; a missing id yields Task not found. -/
theorem assign_any_status_witness :
    (TasksRepository.findById
        [{ id := "c", status := "closed", closed_at := some 8,
           close_reason := some "inactivity", greeting_sent_at := some 1,
           ping_sent_at := some 2, inactive_sent_at := some 8 : TaskRow }] "c"
      = some { id := "c", status := "closed", closed_at := some 8,
               close_reason := some "inactivity", greeting_sent_at := some 1,
               ping_sent_at := some 2, inactive_sent_at := some 8 })
    ∧ (∃ s2 r, assignService
          { tasks := [{ id := "c", status := "closed", closed_at := some 8,
                        close_reason := some "inactivity", greeting_sent_at := some 1,
                        ping_sent_at := some 2, inactive_sent_at := some 8 }] }
          "c" "op1" "Bia" 9 = (s2, Except.ok r)
        ∧ r.status = "assigned"
        ∧ r.closed_at = some 8
        ∧ r.close_reason = some "inactivity"
        ∧ r.greeting_sent_at = some 1
        ∧ r.ping_sent_at = some 2
        ∧ r.inactive_sent_at = some 8
        ∧ r.last_customer_activity_at = none) :=
  ⟨by decide,
   (assign_any_status_and_not_found
      { tasks := [{ id := "c", status := "closed", closed_at := some 8,
                    close_reason := some "inactivity", greeting_sent_at := some 1,
                    ping_sent_at := some 2, inactive_sent_at := some 8 }] }
      "c" "op1" "Bia" 9).1
      { id := "c", status := "closed", closed_at := some 8,
        close_reason := some "inactivity", greeting_sent_at := some 1,
        ping_sent_at := some 2, inactive_sent_at := some 8 } (by decide)⟩
/-- C4: when the inactivity callback passes its guards and the closing
message send succeeds, closeDueToInactivity stamps inactive_sent_at and
closed_at with the same timestamp, status closed and close_reason
inactivity; the resulting row therefore satisfies the invariant
greeting_sent_at ≤ inactive_sent_at = closed_at with no customer activity
after the greeting. -/
theorem sendInternalInactiveAndClose_closes_with_invariant
    (s : SvcState) (taskId : String) (now : Int) (t : TaskRow) (g : Int)
    (h : TasksRepository.findById s.tasks taskId = some t)
    (hs : t.status = "assigned")
    (hg : t.greeting_sent_at = some g)
    (hin : t.inactive_sent_at = none)
    (hla : ∀ la, t.last_customer_activity_at = some la → la ≤ g)
    (hgn : g ≤ now) :
    ∃ r, TasksRepository.findById
        (sendInternalInactiveAndClose s taskId true now).tasks taskId = some r
      ∧ r.inactive_sent_at = some now
      ∧ r.closed_at = some now
      ∧ r.inactive_sent_at = r.closed_at
      ∧ r.status = "closed"
      ∧ r.close_reason = some "inactivity"
      ∧ r.greeting_sent_at = some g
      ∧ g ≤ now
      ∧ (∀ la, r.last_customer_activity_at = some la → la ≤ g) := by
  have h2 := findById_updateTask s.tasks taskId
    (fun u => { u with inactive_sent_at := some now, status := "closed",
                       closed_at := some now, close_reason := some "inactivity",
                       updated_at := now })
    (fun _ => rfl)
  rw [h] at h2
  have hguard : (match t.last_customer_activity_at with
      | some la => decide (g < la)
      | none => false) = false := by
    cases hcase : t.last_customer_activity_at with
    | none => rfl
    | some la =>
      have := hla la hcase
      simp
      omega
  have hrun : (sendInternalInactiveAndClose s taskId true now).tasks
      = TasksRepository.updateTask s.tasks taskId
          (fun u => { u with inactive_sent_at := some now, status := "closed",
                             closed_at := some now, close_reason := some "inactivity",
                             updated_at := now }) := by
    unfold sendInternalInactiveAndClose TasksRepository.closeDueToInactivity
    rw [h]
    simp [hs, hg, hin, hguard, h, h2]
  rw [hrun, h2]
  simp only [Option.map_some']
  refine ⟨_, rfl, rfl, rfl, rfl, rfl, rfl, ?_, hgn, ?_⟩
  · simp [hg]
  · intro la hl
    exact hla la hl

/-- Witness for C4 at a concrete greeted, inactive task. -/
theorem inactive_close_witness :
    ((∀ la, ({ id := "a", status := "assigned", greeting_sent_at := some 10 : TaskRow
             }).last_customer_activity_at = some la → la ≤ 10)
     ∧ (10 : Int) ≤ 40)
    ∧ (∃ r, TasksRepository.findById
          (sendInternalInactiveAndClose
            { tasks := [{ id := "a", status := "assigned", greeting_sent_at := some 10 }] }
            "a" true 40).tasks "a" = some r
        ∧ r.inactive_sent_at = some 40
        ∧ r.closed_at = some 40
        ∧ r.inactive_sent_at = r.closed_at
        ∧ r.status = "closed"
        ∧ r.close_reason = some "inactivity"
        ∧ r.greeting_sent_at = some 10
        ∧ (10 : Int) ≤ 40
        ∧ (∀ la, r.last_customer_activity_at = some la → la ≤ 10)) :=
  ⟨⟨(by intro la hla; cases hla), by norm_num⟩,
   sendInternalInactiveAndClose_closes_with_invariant
     { tasks := [{ id := "a", status := "assigned", greeting_sent_at := some 10 }] }
     "a" 40 { id := "a", status := "assigned", greeting_sent_at := some 10 } 10
     (by decide) (by decide) (by decide) (by decide)
     (by intro la hla; cases hla) (by norm_num)⟩
/-- C6: the ping callback is a complete no-op (no outbound message, no
persistence write, state unchanged) whenever status is not assigned, or no
greeting is recorded, or a ping was already sent, or customer activity is
later than the greeting; in particular it is a no-op on the state produced
by markCustomerActivity when the activity timestamp is after the greeting. -/
theorem ping_callback_noop_conditions
    (s : SvcState) (taskId : String) (smsOk : Bool) (now : Int) :
    (∀ t, TasksRepository.findById s.tasks taskId = some t →
      (t.status ≠ "assigned" ∨ t.greeting_sent_at = none
        ∨ t.ping_sent_at.isSome = true
        ∨ (∃ g la, t.greeting_sent_at = some g
             ∧ t.last_customer_activity_at = some la ∧ g < la)) →
      sendInternalPingIfInactive s taskId smsOk now = s)
    ∧ (∀ t now1 now2, TasksRepository.findById s.tasks taskId = some t →
        (∀ g, t.greeting_sent_at = some g → g < now1) →
        sendInternalPingIfInactive
          (markCustomerActivityService s taskId now1).1 taskId smsOk now2
          = (markCustomerActivityService s taskId now1).1) := by
  constructor
  · intro t h hcond
    unfold sendInternalPingIfInactive
    rw [h]
    rcases hcond with hstat | hgn | hping | ⟨g, la, hg, hla, hgl⟩
    · simp [hstat]
    · simp [hgn, ite_self]
    · cases hgre : t.greeting_sent_at with
      | none => simp [hgre, ite_self]
      | some g => simp [hgre, hping, ite_self]
    · simp [hg, hla, hgl, ite_self]
  · intro t now1 now2 h hlt
    have h2 := findById_updateTask s.tasks taskId
      (fun u => { u with last_customer_activity_at := some now1, updated_at := now1 })
      (fun _ => rfl)
    rw [h] at h2
    have hm : (markCustomerActivityService s taskId now1).1
        = { s with
            tasks := TasksRepository.updateTask s.tasks taskId
              (fun u => { u with last_customer_activity_at := some now1,
                                 updated_at := now1 })
            writes := s.writes + 1
            sched := s.sched.cancel taskId } := by
      unfold markCustomerActivityService TasksRepository.markCustomerActivity
      rw [h]
      simp [h2]
    rw [hm]
    unfold sendInternalPingIfInactive
    cases hgre : t.greeting_sent_at with
    | none => simp [h2, hgre, ite_self]
    | some g => simp [h2, hgre, hlt g hgre, ite_self]

/-- Witness for C6: activity at 20 after a greeting at 10 silences the ping. -/
theorem ping_callback_noop_witness :
    (TasksRepository.findById
        [{ id := "a", status := "assigned", greeting_sent_at := some 10 : TaskRow }] "a"
      = some { id := "a", status := "assigned", greeting_sent_at := some 10 })
    ∧ sendInternalPingIfInactive
        (markCustomerActivityService
          { tasks := [{ id := "a", status := "assigned", greeting_sent_at := some 10 }] }
          "a" 20).1 "a" true 30
      = (markCustomerActivityService
          { tasks := [{ id := "a", status := "assigned", greeting_sent_at := some 10 }] }
          "a" 20).1 :=
  ⟨by decide,
   (ping_callback_noop_conditions
      { tasks := [{ id := "a", status := "assigned", greeting_sent_at := some 10 }] }
      "a" true 30).2
      { id := "a", status := "assigned", greeting_sent_at := some 10 } 20 30
      (by decide)
      (by intro g hg; cases hg; norm_num)⟩
/-- Reduction of the flex activity sink to its classification conditional,
for a non-empty author and a found state. -/
theorem markFlex_reduce (s : SvcState) (conversationSid : String)
    (author : Option String) (autoRaw : Option String) (now : Int)
    (state : FlexTaskState)
    (hfound : FlexTasksRepository.findByConversationSid s.flex conversationSid
      = some state)
    (hta : jsTrim (author.getD "") ≠ "") :
    markFlexCustomerActivityByConversationSid s conversationSid author autoRaw now
      = if (if (!((state.customer_address.map jsTrim).getD "" == ""))
               || (!((state.customer_from.map jsTrim).getD "" == ""))
            then (!(state.customer_address.map jsTrim
                      == some (jsTrim (author.getD ""))))
                 && (!(state.customer_from.map jsTrim
                      == some (jsTrim (author.getD ""))))
            else (jsTrim (author.getD "") == getAutomationAuthor autoRaw)
                 || (match state.worker_name with
                     | some wn => (!(wn == "")) && (jsTrim (author.getD "") == wn)
                     | none => false)
                 || (match state.worker_sid with
                     | some ws => (!(ws == "")) && (jsTrim (author.getD "") == ws)
                     | none => false))
        then s
        else { s with
               flex := FlexTasksRepository.markCustomerActivity s.flex
                 state.task_sid now now
               writes := s.writes + 1
               sched := s.sched.cancel state.task_sid } := by
  unfold markFlexCustomerActivityByConversationSid
  rw [if_neg (by simpa using hta)]
  rw [hfound]

/-- C7: markFlexCustomerActivityByConversationSid writes
last_customer_activity_at and cancels the scheduler entry exactly when the
trimmed author is classified as the customer: with a known customer_address
or customer_from, iff the author equals one of them (after trimming);
otherwise iff the author differs from the automation author and from the
stored worker_name and worker_sid; an empty author or an unknown
conversation sid is a complete no-op. -/
theorem markFlexActivity_characterization
    (s : SvcState) (conversationSid : String) (author : Option String)
    (autoRaw : Option String) (now : Int) :
    (jsTrim (author.getD "") = "" →
      markFlexCustomerActivityByConversationSid s conversationSid author autoRaw now = s)
    ∧ (FlexTasksRepository.findByConversationSid s.flex conversationSid = none →
      markFlexCustomerActivityByConversationSid s conversationSid author autoRaw now = s)
    ∧ (∀ state, FlexTasksRepository.findByConversationSid s.flex conversationSid
          = some state →
        jsTrim (author.getD "") ≠ "" →
        (((state.customer_address.map jsTrim).getD "" ≠ ""
           ∨ (state.customer_from.map jsTrim).getD "" ≠ "") →
          ((state.customer_address.map jsTrim = some (jsTrim (author.getD ""))
             ∨ state.customer_from.map jsTrim = some (jsTrim (author.getD ""))) →
            markFlexCustomerActivityByConversationSid s conversationSid author autoRaw now
              = { s with
                  flex := FlexTasksRepository.markCustomerActivity s.flex
                    state.task_sid now now
                  writes := s.writes + 1
                  sched := s.sched.cancel state.task_sid })
          ∧ ((state.customer_address.map jsTrim ≠ some (jsTrim (author.getD ""))
             ∧ state.customer_from.map jsTrim ≠ some (jsTrim (author.getD ""))) →
            markFlexCustomerActivityByConversationSid s conversationSid author autoRaw now
              = s))
        ∧ ((state.customer_address.map jsTrim).getD "" = "" →
           (state.customer_from.map jsTrim).getD "" = "" →
          ((jsTrim (author.getD "") ≠ getAutomationAuthor autoRaw
            ∧ state.worker_name ≠ some (jsTrim (author.getD ""))
            ∧ state.worker_sid ≠ some (jsTrim (author.getD ""))) →
            markFlexCustomerActivityByConversationSid s conversationSid author autoRaw now
              = { s with
                  flex := FlexTasksRepository.markCustomerActivity s.flex
                    state.task_sid now now
                  writes := s.writes + 1
                  sched := s.sched.cancel state.task_sid })
          ∧ ((jsTrim (author.getD "") = getAutomationAuthor autoRaw
            ∨ state.worker_name = some (jsTrim (author.getD ""))
            ∨ state.worker_sid = some (jsTrim (author.getD ""))) →
            markFlexCustomerActivityByConversationSid s conversationSid author autoRaw now
              = s))) := by
  refine ⟨?_, ?_, ?_⟩
  · intro hta
    unfold markFlexCustomerActivityByConversationSid
    simp [hta]
  · intro hnone
    unfold markFlexCustomerActivityByConversationSid
    by_cases hta : jsTrim (author.getD "") = ""
    · simp [hta]
    · simp [hta, hnone]
  · intro state hfound hta
    rw [markFlex_reduce s conversationSid author autoRaw now state hfound hta]
    constructor
    · intro hknown
      have hknownB : ((!((state.customer_address.map jsTrim).getD "" == ""))
          || (!((state.customer_from.map jsTrim).getD "" == ""))) = true := by
        rcases hknown with h1 | h1 <;> simp [h1]
      rw [hknownB]
      constructor
      · intro hmatch
        have hA : ((!(state.customer_address.map jsTrim
              == some (jsTrim (author.getD ""))))
            && (!(state.customer_from.map jsTrim
              == some (jsTrim (author.getD ""))))) = false := by
          rcases hmatch with h3 | h3 <;> simp [h3]
        rw [hA]
        simp
      · intro hmiss
        have hA : ((!(state.customer_address.map jsTrim
              == some (jsTrim (author.getD ""))))
            && (!(state.customer_from.map jsTrim
              == some (jsTrim (author.getD ""))))) = true := by
          simp [hmiss.1, hmiss.2]
        rw [hA]
        simp
    · intro hca hcf
      have hknownB : ((!((state.customer_address.map jsTrim).getD "" == ""))
          || (!((state.customer_from.map jsTrim).getD "" == ""))) = false := by
        simp [hca, hcf]
      rw [hknownB]
      constructor
      · intro hdiff
        rcases hdiff with ⟨hau, hwn2, hws2⟩
        have hB : ((jsTrim (author.getD "") == getAutomationAuthor autoRaw)
            || (match state.worker_name with
                | some wn => (!(wn == "")) && (jsTrim (author.getD "") == wn)
                | none => false)
            || (match state.worker_sid with
                | some ws => (!(ws == "")) && (jsTrim (author.getD "") == ws)
                | none => false)) = false := by
          cases hwn : state.worker_name with
          | none =>
            cases hws : state.worker_sid with
            | none => simp [hau, hwn, hws]
            | some wsv =>
              have hne : ¬ (jsTrim (author.getD "") = wsv) := by
                intro he
                exact hws2 (by rw [hws, he])
              simp [hau, hwn, hws, hne]
          | some wnv =>
            have hne : ¬ (jsTrim (author.getD "") = wnv) := by
              intro he
              exact hwn2 (by rw [hwn, he])
            cases hws : state.worker_sid with
            | none => simp [hau, hwn, hws, hne]
            | some wsv =>
              have hne2 : ¬ (jsTrim (author.getD "") = wsv) := by
                intro he
                exact hws2 (by rw [hws, he])
              simp [hau, hwn, hws, hne, hne2]
        rw [hB]
        simp
      · intro hsame
        have hB : ((jsTrim (author.getD "") == getAutomationAuthor autoRaw)
            || (match state.worker_name with
                | some wn => (!(wn == "")) && (jsTrim (author.getD "") == wn)
                | none => false)
            || (match state.worker_sid with
                | some ws => (!(ws == "")) && (jsTrim (author.getD "") == ws)
                | none => false)) = true := by
          rcases hsame with h3 | h3 | h3
          · simp [h3]
          · simp [h3, hta]
          · simp [h3, hta]
        rw [hB]
        simp

/-- Witness for C7: an inbound whose author equals the stored workerName,
with customerFrom known, mutates nothing. -/
theorem markFlexActivity_witness :
    markFlexCustomerActivityByConversationSid
      { flex := ⟨[{ task_sid := "WT1", conversation_sid := some "CH1",
                    customer_from := some "+55", worker_name := some "Bia" }],
                 [("CH1", "WT1")]⟩ }
      "CH1" (some "Bia") none 50
      = { flex := ⟨[{ task_sid := "WT1", conversation_sid := some "CH1",
                      customer_from := some "+55", worker_name := some "Bia" }],
                   [("CH1", "WT1")]⟩ } :=
  (((markFlexActivity_characterization
      { flex := ⟨[{ task_sid := "WT1", conversation_sid := some "CH1",
                    customer_from := some "+55", worker_name := some "Bia" }],
                 [("CH1", "WT1")]⟩ }
      "CH1" (some "Bia") none 50).2.2
      { task_sid := "WT1", conversation_sid := some "CH1",
        customer_from := some "+55", worker_name := some "Bia" }
      (by decide) (by decide)).1 (by decide)).2 (by decide)
/-- Extraction for rule 1: a hit is the trimmed identity of a listed
participant, non-empty, equal to the worker sid after normalization. -/
theorem rule1_char (participants : List Participant) (nSid : String) (hasSid : Bool)
    (i : String) (h : ruleIdentityEqWorkerSid participants nSid hasSid = some i) :
    ∃ p ∈ participants, identityOf p = i ∧ (i == "") = false
      ∧ hasSid = true ∧ (normJs (some i) == nSid) = true := by
  unfold ruleIdentityEqWorkerSid at h
  obtain ⟨p, hp, hfp⟩ := List.exists_of_findSome?_eq_some h
  dsimp only at hfp
  split at hfp
  · next hcond =>
    obtain rfl := Option.some.inj hfp
    have h1 := (Bool.and_eq_true _ _).mp hcond
    have h2 := (Bool.and_eq_true _ _).mp h1.1
    exact ⟨p, hp, rfl, by simpa using h2.1, h2.2, h1.2⟩
  · exact absurd hfp (by simp)

/-- Extraction for rule 2: a hit matches the worker name. -/
theorem rule2_char (participants : List Participant) (nName : String)
    (i : String) (h : ruleIdentityEqWorkerName participants nName = some i) :
    ∃ p ∈ participants, identityOf p = i ∧ (i == "") = false
      ∧ (nName == "") = false ∧ (normJs (some i) == nName) = true := by
  unfold ruleIdentityEqWorkerName at h
  split at h
  · next hname =>
    obtain ⟨p, hp, hfp⟩ := List.exists_of_findSome?_eq_some h
    dsimp only at hfp
    split at hfp
    · next hcond =>
      obtain rfl := Option.some.inj hfp
      have h1 := (Bool.and_eq_true _ _).mp hcond
      exact ⟨p, hp, rfl, by simpa using h1.1, by simpa using hname, h1.2⟩
    · exact absurd hfp (by simp)
  · exact absurd h (by simp)

/-- Extraction for rule 3: a hit carries the worker sid in its parsed
attributes. -/
theorem rule3_char (participants : List Participant) (nSid : String) (hasSid : Bool)
    (i : String) (h : ruleAttrsWorkerSid participants nSid hasSid = some i) :
    ∃ p ∈ participants, identityOf p = i ∧ (i == "") = false
      ∧ hasSid = true
      ∧ ∃ sid, pickWorkerSidFromAttributes p.attrs = some sid
          ∧ (normJs (some sid) == nSid) = true := by
  unfold ruleAttrsWorkerSid at h
  split at h
  · next hsid =>
    obtain ⟨p, hp, hfp⟩ := List.exists_of_findSome?_eq_some h
    dsimp only at hfp
    split at hfp
    · next hne =>
      split at hfp
      · next sid hpick =>
        split at hfp
        · next hnorm =>
          obtain rfl := Option.some.inj hfp
          exact ⟨p, hp, rfl, by simpa using hne, hsid, sid, hpick, hnorm⟩
        · exact absurd hfp (by simp)
      · exact absurd hfp (by simp)
    · exact absurd hfp (by simp)
  · exact absurd h (by simp)

/-- Extraction for rule 4: a hit has a raw attributes string containing the
worker sid value. -/
theorem rule4_char (participants : List Participant) (sidValue : String)
    (hasSid : Bool) (i : String)
    (h : ruleRawAttrsContains participants sidValue hasSid = some i) :
    ∃ p ∈ participants, identityOf p = i ∧ (i == "") = false
      ∧ hasSid = true
      ∧ ∃ raw, p.attributesRaw = some raw ∧ jsIncludes raw sidValue = true := by
  unfold ruleRawAttrsContains at h
  split at h
  · next hsid =>
    obtain ⟨p, hp, hfp⟩ := List.exists_of_findSome?_eq_some h
    dsimp only at hfp
    split at hfp
    · next hne =>
      split at hfp
      · next raw hraw =>
        split at hfp
        · next hinc =>
          obtain rfl := Option.some.inj hfp
          exact ⟨p, hp, rfl, by simpa using hne, hsid, raw, hraw, hinc⟩
        · exact absurd hfp (by simp)
      · exact absurd hfp (by simp)
    · exact absurd hfp (by simp)
  · exact absurd h (by simp)

/-- Extraction for rule 5: the sole candidate is a non-customer participant
of the list. -/
theorem rule5_char (participants : List Participant) (markers : List String)
    (i : String) (h : ruleSoleNonCustomer participants markers = some i) :
    ∃ p ∈ participants, identityOf p = i ∧ (i == "") = false
      ∧ isCustomerParticipant markers p = false := by
  unfold ruleSoleNonCustomer at h
  dsimp only at h
  split at h
  · next hlen =>
    have hmem : i ∈ nonCustomerCandidates participants markers := by
      cases hc : nonCustomerCandidates participants markers with
      | nil => rw [hc] at h; cases h
      | cons x xs =>
        rw [hc] at h
        simp at h
        simp [h]
    unfold nonCustomerCandidates at hmem
    obtain ⟨p, hp, hfp⟩ := List.mem_filterMap.mp hmem
    dsimp only at hfp
    split at hfp
    · next hcond =>
      obtain rfl := Option.some.inj hfp
      have h1 := (Bool.and_eq_true _ _).mp hcond
      exact ⟨p, hp, rfl, by simpa using h1.1, by simpa using h1.2⟩
    · exact absurd hfp (by simp)
  · exact absurd h (by simp)
/-- C8: worker-participant identity resolution follows the five-rule
priority order (identity equals workerSid case-insensitively after trimming;
identity equals workerName; parsed JSON attributes carry the workerSid; raw
attributes contain the workerSid as substring; sole non-customer candidate),
returns null when no rule matches, and in particular returns null when rules
1 to 4 fail and two or more non-customer candidates exist; every returned
identity is the non-empty trimmed identity of a listed participant. -/
theorem resolveWorkerParticipantIdentity_priority
    (participants : List Participant) (ws wn ca cf : Option String) :
    (resolveWorkerParticipantIdentity participants ws wn ca cf = none ↔
      ruleIdentityEqWorkerSid participants (normJs ws) (!(normJs ws == "")) = none
      ∧ ruleIdentityEqWorkerName participants (normJs wn) = none
      ∧ ruleAttrsWorkerSid participants (normJs ws) (!(normJs ws == "")) = none
      ∧ ruleRawAttrsContains participants (ws.getD "") (!(normJs ws == "")) = none
      ∧ (nonCustomerCandidates participants (customerMarkers ca cf)).length ≠ 1)
    ∧ (∀ i, ruleIdentityEqWorkerSid participants (normJs ws) (!(normJs ws == "")) = some i →
        resolveWorkerParticipantIdentity participants ws wn ca cf = some i)
    ∧ (ruleIdentityEqWorkerSid participants (normJs ws) (!(normJs ws == "")) = none →
       ∀ i, ruleIdentityEqWorkerName participants (normJs wn) = some i →
        resolveWorkerParticipantIdentity participants ws wn ca cf = some i)
    ∧ (ruleIdentityEqWorkerSid participants (normJs ws) (!(normJs ws == "")) = none →
       ruleIdentityEqWorkerName participants (normJs wn) = none →
       ∀ i, ruleAttrsWorkerSid participants (normJs ws) (!(normJs ws == "")) = some i →
        resolveWorkerParticipantIdentity participants ws wn ca cf = some i)
    ∧ (ruleIdentityEqWorkerSid participants (normJs ws) (!(normJs ws == "")) = none →
       ruleIdentityEqWorkerName participants (normJs wn) = none →
       ruleAttrsWorkerSid participants (normJs ws) (!(normJs ws == "")) = none →
       ∀ i, ruleRawAttrsContains participants (ws.getD "") (!(normJs ws == "")) = some i →
        resolveWorkerParticipantIdentity participants ws wn ca cf = some i)
    ∧ (ruleIdentityEqWorkerSid participants (normJs ws) (!(normJs ws == "")) = none →
       ruleIdentityEqWorkerName participants (normJs wn) = none →
       ruleAttrsWorkerSid participants (normJs ws) (!(normJs ws == "")) = none →
       ruleRawAttrsContains participants (ws.getD "") (!(normJs ws == "")) = none →
        resolveWorkerParticipantIdentity participants ws wn ca cf
          = ruleSoleNonCustomer participants (customerMarkers ca cf))
    ∧ (∀ i, ruleSoleNonCustomer participants (customerMarkers ca cf) = some i ↔
        nonCustomerCandidates participants (customerMarkers ca cf) = [i])
    ∧ (2 ≤ (nonCustomerCandidates participants (customerMarkers ca cf)).length →
       ruleIdentityEqWorkerSid participants (normJs ws) (!(normJs ws == "")) = none →
       ruleIdentityEqWorkerName participants (normJs wn) = none →
       ruleAttrsWorkerSid participants (normJs ws) (!(normJs ws == "")) = none →
       ruleRawAttrsContains participants (ws.getD "") (!(normJs ws == "")) = none →
        resolveWorkerParticipantIdentity participants ws wn ca cf = none)
    ∧ (∀ i, resolveWorkerParticipantIdentity participants ws wn ca cf = some i →
        ∃ p ∈ participants, identityOf p = i ∧ (i == "") = false) := by
  have hsole : ∀ i, ruleSoleNonCustomer participants (customerMarkers ca cf) = some i ↔
      nonCustomerCandidates participants (customerMarkers ca cf) = [i] := by
    intro i
    unfold ruleSoleNonCustomer
    cases hc : nonCustomerCandidates participants (customerMarkers ca cf) with
    | nil => simp
    | cons x xs =>
      cases xs with
      | nil => simp
      | cons y ys => simp
  have hsole_none : ruleSoleNonCustomer participants (customerMarkers ca cf) = none ↔
      (nonCustomerCandidates participants (customerMarkers ca cf)).length ≠ 1 := by
    unfold ruleSoleNonCustomer
    cases hc : nonCustomerCandidates participants (customerMarkers ca cf) with
    | nil => simp
    | cons x xs =>
      cases xs with
      | nil => simp
      | cons y ys => simp
  refine ⟨?_, ?_, ?_, ?_, ?_, ?_, hsole, ?_, ?_⟩
  · unfold resolveWorkerParticipantIdentity
    cases h1 : ruleIdentityEqWorkerSid participants (normJs ws) (!(normJs ws == "")) <;>
    cases h2 : ruleIdentityEqWorkerName participants (normJs wn) <;>
    cases h3 : ruleAttrsWorkerSid participants (normJs ws) (!(normJs ws == "")) <;>
    cases h4 : ruleRawAttrsContains participants (ws.getD "") (!(normJs ws == "")) <;>
      simp [Option.or, h1, h2, h3, h4, hsole_none]
  · intro i h1
    unfold resolveWorkerParticipantIdentity
    simp [Option.or, h1]
  · intro h1 i h2
    unfold resolveWorkerParticipantIdentity
    simp [Option.or, h1, h2]
  · intro h1 h2 i h3
    unfold resolveWorkerParticipantIdentity
    simp [Option.or, h1, h2, h3]
  · intro h1 h2 h3 i h4
    unfold resolveWorkerParticipantIdentity
    simp [Option.or, h1, h2, h3, h4]
  · intro h1 h2 h3 h4
    unfold resolveWorkerParticipantIdentity
    simp [Option.or, h1, h2, h3, h4]
  · intro hlen h1 h2 h3 h4
    unfold resolveWorkerParticipantIdentity
    have h5 : ruleSoleNonCustomer participants (customerMarkers ca cf) = none := by
      rw [hsole_none]
      omega
    simp [Option.or, h1, h2, h3, h4, h5]
  · intro i hres
    unfold resolveWorkerParticipantIdentity at hres
    dsimp only at hres
    cases h1 : ruleIdentityEqWorkerSid participants (normJs ws) (!(normJs ws == ""))
        with
    | some j =>
      rw [h1] at hres
      simp [Option.or] at hres
      subst hres
      obtain ⟨p, hp, hid, hne, _⟩ := rule1_char participants _ _ j h1
      exact ⟨p, hp, hid, hne⟩
    | none =>
      rw [h1] at hres
      cases h2 : ruleIdentityEqWorkerName participants (normJs wn) with
      | some j =>
        rw [h2] at hres
        simp [Option.or] at hres
        subst hres
        obtain ⟨p, hp, hid, hne, _⟩ := rule2_char participants _ j h2
        exact ⟨p, hp, hid, hne⟩
      | none =>
        rw [h2] at hres
        cases h3 : ruleAttrsWorkerSid participants (normJs ws) (!(normJs ws == ""))
            with
        | some j =>
          rw [h3] at hres
          simp [Option.or] at hres
          subst hres
          obtain ⟨p, hp, hid, hne, _⟩ := rule3_char participants _ _ j h3
          exact ⟨p, hp, hid, hne⟩
        | none =>
          rw [h3] at hres
          cases h4 : ruleRawAttrsContains participants (ws.getD "")
              (!(normJs ws == "")) with
          | some j =>
            rw [h4] at hres
            simp [Option.or] at hres
            subst hres
            obtain ⟨p, hp, hid, hne, _⟩ := rule4_char participants _ _ j h4
            exact ⟨p, hp, hid, hne⟩
          | none =>
            rw [h4] at hres
            simp [Option.or] at hres
            obtain ⟨p, hp, hid, hne, _⟩ :=
              rule5_char participants (customerMarkers ca cf) i hres
            exact ⟨p, hp, hid, hne⟩

/-- Witness for C8: with two non-customer candidates and no sid or name
match, resolution returns null. -/
theorem resolveWorkerParticipantIdentity_witness :
    (2 ≤ (nonCustomerCandidates
        [{ identity := some "agentA" }, { identity := some "agentB" }]
        (customerMarkers none none)).length)
    ∧ resolveWorkerParticipantIdentity
        [{ identity := some "agentA" }, { identity := some "agentB" }]
        none none none none = none :=
  ⟨by decide,
   (resolveWorkerParticipantIdentity_priority
      [{ identity := some "agentA" }, { identity := some "agentB" }]
      none none none none).2.2.2.2.2.2.2.1
      (by decide) (by decide) (by decide) (by decide) (by decide)⟩
/-- Concrete flex environment: client configured, workspace configured,
provider returns zero assigned tasks. -/
def envEmptyPoll : FlexEnv :=
  { clientConfigured := true
    configuredWorkspaceSid := some "WS1"
    workspaces := []
    pollLimit := 50
    tasks := []
    convSendOk := fun _ => true
    automationAuthorRaw := none }

/-- C1 counterexample: with the client configured and a workspace resolved
but an empty assigned-task list, autoProcessFlexAssignedTasks returns true
(not false), and the auto-mode tick does not run the internal pipeline. -/
theorem autoProcessFlex_emptyPoll_counterexample :
    (autoProcessFlexAssignedTasks envEmptyPoll {} 0).2 = true
    ∧ ¬ ((autoProcessFlexAssignedTasks envEmptyPoll {} 0).2 = false)
    ∧ (autoProcessAssignedTasks envEmptyPoll none 100 true {} 0).2.2 = false := by
  refine ⟨rfl, ?_, rfl⟩
  intro h
  cases (rfl : (autoProcessFlexAssignedTasks envEmptyPoll {} 0).2 = true).symm.trans h

/-- C1 amended: autoProcessFlexAssignedTasks returns true whenever the
client is configured and a workspace resolves, regardless of how many tasks
the provider lists; it returns false exactly when the client is unconfigured
or no workspace resolves, and in auto mode the internal pipeline runs
exactly in that case. -/
theorem autoProcessFlex_true_when_configured
    (env : FlexEnv) (s : SvcState) (now : Int) (batch : Nat) (smsOk : Bool) :
    (env.clientConfigured = true → ∀ wsid, resolveWorkspaceSid env = some wsid →
      (autoProcessFlexAssignedTasks env s now).2 = true)
    ∧ ((autoProcessFlexAssignedTasks env s now).2 = false ↔
        env.clientConfigured = false ∨ resolveWorkspaceSid env = none)
    ∧ ((autoProcessAssignedTasks env none batch smsOk s now).2.2 = true ↔
        (autoProcessFlexAssignedTasks env s now).2 = false) := by
  refine ⟨?_, ?_, ?_⟩
  · intro hc wsid hws
    unfold autoProcessFlexAssignedTasks
    simp [hc, hws]
  · unfold autoProcessFlexAssignedTasks
    by_cases hc : env.clientConfigured = true
    · cases hws : resolveWorkspaceSid env with
      | none => simp [hc, hws]
      | some wsid => simp [hc, hws]
    · have hc' : env.clientConfigured = false := by
        simpa using hc
      simp [hc']
  · unfold autoProcessAssignedTasks
    have hsrc1 : (normalizeSource none == "internal") = false := by decide
    have hsrc2 : (normalizeSource none == "flex") = false := by decide
    cases hfr : autoProcessFlexAssignedTasks env s now with
    | mk s1 b =>
      cases b <;> simp [hsrc1, hsrc2, hfr]

/-- Witness for C1 at the concrete empty-poll environment. -/
theorem autoProcessFlex_true_witness :
    (envEmptyPoll.clientConfigured = true
      ∧ resolveWorkspaceSid envEmptyPoll = some "WS1")
    ∧ (autoProcessFlexAssignedTasks envEmptyPoll {} 0).2 = true :=
  ⟨⟨rfl, rfl⟩,
   (autoProcessFlex_true_when_configured envEmptyPoll {} 0 100 true).1
     rfl "WS1" rfl⟩
-- ================================
-- C2 machinery: the internal tick as a pointwise row transformation
-- ================================

/-- The row update performed by a successful greeting send in the tick. -/
def greetWrite (now : Int) (r : TaskRow) : TaskRow :=
  { r with greeting_sent_at := some now, ping_sent_at := none,
           inactive_sent_at := none, updated_at := now }

/-- Whether processing snapshot row t writes the greeting. -/
def stepActive (smsOk : Bool) (t : TaskRow) : Bool :=
  (t.status == "assigned") && t.operator_id.isSome && t.operator_name.isSome
    && t.greeting_sent_at.isNone && smsOk

/-- Pointwise effect of one loop iteration for snapshot row t. -/
def applyStep (smsOk : Bool) (now : Int) (t r : TaskRow) : TaskRow :=
  if stepActive smsOk t && (r.id == t.id) then greetWrite now r else r

/-- Pointwise effect of the whole loop over snapshot list L. -/
def applyAll (smsOk : Bool) (now : Int) (L : List TaskRow) (r : TaskRow) : TaskRow :=
  L.foldl (fun r t => applyStep smsOk now t r) r

theorem map_congr_id {α : Type} (l : List α) (f : α → α) (h : ∀ a ∈ l, f a = a) :
    l.map f = l := by
  induction l with
  | nil => rfl
  | cons x xs ih =>
    simp only [List.map_cons, h x (by simp)]
    rw [ih (fun a ha => h a (by simp [ha]))]

theorem map_funext {α β : Type} (l : List α) (f g : α → β) (h : ∀ a ∈ l, f a = g a) :
    l.map f = l.map g := by
  induction l with
  | nil => rfl
  | cons x xs ih =>
    simp only [List.map_cons, h x (by simp)]
    rw [ih (fun a ha => h a (by simp [ha]))]

theorem isSome_of_isNone_false {α : Type} (o : Option α) (h : o.isNone = false) :
    o.isSome = true := by
  cases o <;> simp_all

theorem isSome_of_ne_none {α : Type} (o : Option α) (h : ¬ o = none) :
    o.isSome = true := by
  cases o
  · exact absurd rfl h
  · rfl

/-- The store effect of one loop iteration is a map with applyStep. -/
theorem internalStep_tasks (smsOk : Bool) (now : Int) (s : SvcState) (t : TaskRow) :
    (internalStep smsOk now s t).tasks = s.tasks.map (applyStep smsOk now t) := by
  unfold internalStep
  by_cases hstat : (t.status == "assigned") = true
  case neg =>
    have hstat' : (t.status == "assigned") = false := by simpa using hstat
    rw [if_pos (by simp [hstat'])]
    exact (map_congr_id _ _ (fun r _ => by simp [applyStep, stepActive, hstat'])).symm
  case pos =>
    rw [if_neg (by simp [hstat])]
    by_cases hop : (t.operator_id.isNone || t.operator_name.isNone) = true
    · rw [if_pos hop]
      have hact : stepActive smsOk t = false := by
        unfold stepActive
        rcases (Bool.or_eq_true _ _).mp hop with h | h
        · simp [h]
        · simp [h]
      exact (map_congr_id _ _ (fun r _ => by simp [applyStep, hact])).symm
    · rw [if_neg hop]
      have hop2 : ¬ t.operator_id = none ∧ ¬ t.operator_name = none := by
        simpa using hop
      cases hg : t.greeting_sent_at with
      | some g =>
        dsimp only
        have hact : stepActive smsOk t = false := by simp [stepActive, hg]
        have hmap : s.tasks.map (applyStep smsOk now t) = s.tasks :=
          map_congr_id _ _ (fun r _ => by simp [applyStep, hact])
        by_cases hla : (match t.last_customer_activity_at with
            | some la => decide (g < la)
            | none => false) = true
        · rw [if_pos hla]
          simpa using hmap.symm
        · rw [if_neg hla]
          by_cases hin : t.inactive_sent_at.isSome = true
          · rw [if_pos hin]
            simpa using hmap.symm
          · rw [if_neg hin]
            simpa using hmap.symm
      | none =>
        dsimp only
        cases smsOk with
        | false =>
          have hact : stepActive false t = false := by simp [stepActive]
          rw [if_pos (by decide)]
          exact (map_congr_id _ _ (fun r _ => by simp [applyStep, hact])).symm
        | true =>
          rw [if_neg (by decide)]
          have hact : stepActive true t = true := by
            simp [stepActive, hstat, hg,
              isSome_of_ne_none _ hop2.1, isSome_of_ne_none _ hop2.2]
          cases hfind : TasksRepository.findById s.tasks t.id with
          | none =>
            have hall := List.find?_eq_none.mp hfind
            have hset : TasksRepository.setGreetingSent s.tasks t.id now now = none := by
              unfold TasksRepository.setGreetingSent
              rw [hfind]
            simp only [hset]
            refine (map_congr_id _ _ (fun r hr => ?_)).symm
            have hid : (r.id == t.id) = false := by
              simpa using hall r hr
            simp [applyStep, hid]
          | some u =>
            have h2 := findById_updateTask s.tasks t.id
              (fun w => { w with greeting_sent_at := some now, ping_sent_at := none,
                                 inactive_sent_at := none, updated_at := now })
              (fun _ => rfl)
            rw [hfind] at h2
            have hset : TasksRepository.setGreetingSent s.tasks t.id now now
                = some (TasksRepository.updateTask s.tasks t.id
                    (fun w => { w with greeting_sent_at := some now, ping_sent_at := none,
                                       inactive_sent_at := none, updated_at := now }),
                  { u with greeting_sent_at := some now, ping_sent_at := none,
                           inactive_sent_at := none, updated_at := now }) := by
              unfold TasksRepository.setGreetingSent
              rw [hfind]
              simp [h2]
            simp only [hset]
            unfold TasksRepository.updateTask
            refine (map_funext _ _ _ (fun r _ => ?_)).symm
            by_cases hid : (r.id == t.id) = true
            · simp [applyStep, hact, hid, greetWrite]
            · have hid' : (r.id == t.id) = false := by simpa using hid
              simp [applyStep, hid']
/-- The store effect of the whole internal loop is a map with applyAll. -/
theorem internalFold_tasks (smsOk : Bool) (now : Int) (L : List TaskRow) :
    ∀ s : SvcState,
      (L.foldl (internalStep smsOk now) s).tasks = s.tasks.map (applyAll smsOk now L) := by
  induction L with
  | nil =>
    intro s
    exact (map_congr_id _ _ (fun a _ => rfl)).symm
  | cons t L ih =>
    intro s
    calc (L.foldl (internalStep smsOk now) (internalStep smsOk now s t)).tasks
        = (internalStep smsOk now s t).tasks.map (applyAll smsOk now L) := ih _
      _ = (s.tasks.map (applyStep smsOk now t)).map (applyAll smsOk now L) := by
            rw [internalStep_tasks]
      _ = s.tasks.map (applyAll smsOk now (t :: L)) := by
            rw [List.map_map]
            rfl

theorem applyStep_fields (smsOk : Bool) (now : Int) (t r : TaskRow) :
    (applyStep smsOk now t r).id = r.id
    ∧ (applyStep smsOk now t r).status = r.status
    ∧ (applyStep smsOk now t r).operator_id = r.operator_id
    ∧ (applyStep smsOk now t r).operator_name = r.operator_name := by
  unfold applyStep greetWrite
  split <;> exact ⟨rfl, rfl, rfl, rfl⟩

theorem applyAll_fields (smsOk : Bool) (now : Int) (L : List TaskRow) :
    ∀ r, (applyAll smsOk now L r).id = r.id
      ∧ (applyAll smsOk now L r).status = r.status
      ∧ (applyAll smsOk now L r).operator_id = r.operator_id
      ∧ (applyAll smsOk now L r).operator_name = r.operator_name := by
  induction L with
  | nil => intro r; exact ⟨rfl, rfl, rfl, rfl⟩
  | cons t L ih =>
    intro r
    have h1 := applyStep_fields smsOk now t r
    have h2 := ih (applyStep smsOk now t r)
    exact ⟨h2.1.trans h1.1, h2.2.1.trans h1.2.1,
      h2.2.2.1.trans h1.2.2.1, h2.2.2.2.trans h1.2.2.2⟩

theorem applyStep_greeting_mono (smsOk : Bool) (now : Int) (t r : TaskRow)
    (h : r.greeting_sent_at.isSome = true) :
    (applyStep smsOk now t r).greeting_sent_at.isSome = true := by
  unfold applyStep greetWrite
  split
  · rfl
  · exact h

theorem applyAll_greeting_mono (smsOk : Bool) (now : Int) (L : List TaskRow) :
    ∀ r, r.greeting_sent_at.isSome = true →
      (applyAll smsOk now L r).greeting_sent_at.isSome = true := by
  induction L with
  | nil => intro r h; exact h
  | cons t L ih =>
    intro r h
    exact ih _ (applyStep_greeting_mono smsOk now t r h)

/-- An active snapshot row of the loop list ends up greeted. -/
theorem applyAll_sets_greeting (smsOk : Bool) (now : Int) (L : List TaskRow) :
    ∀ (r t0 : TaskRow), t0 ∈ L → r.id = t0.id → stepActive smsOk t0 = true →
      (applyAll smsOk now L r).greeting_sent_at.isSome = true := by
  induction L with
  | nil => intro r t0 hmem; cases hmem
  | cons t L ih =>
    intro r t0 hmem hid hact
    rcases List.mem_cons.mp hmem with rfl | hmem2
    · have hfire : (applyStep smsOk now t0 r).greeting_sent_at.isSome = true := by
        unfold applyStep
        rw [if_pos (by simp [hact, hid])]
        rfl
      exact applyAll_greeting_mono smsOk now L _ hfire
    · have hid2 : (applyStep smsOk now t r).id = t0.id := by
        rw [(applyStep_fields smsOk now t r).1, hid]
      exact ih _ t0 hmem2 hid2 hact

theorem filter_map_comm {α : Type} (l : List α) (f : α → α) (p : α → Bool)
    (hp : ∀ a, p (f a) = p a) :
    (l.map f).filter p = (l.filter p).map f := by
  induction l with
  | nil => rfl
  | cons x xs ih =>
    by_cases hx : p x = true
    · simp [List.filter_cons, hp, hx, ih]
    · have hx' : p x = false := by simpa using hx
      simp [List.filter_cons, hp, hx', ih]

theorem findByStatus_map (store : List TaskRow) (f : TaskRow → TaskRow)
    (st : String) (limit : Nat) (hf : ∀ r, (f r).status = r.status) :
    TasksRepository.findByStatus (store.map f) st limit
      = (TasksRepository.findByStatus store st limit).map f := by
  unfold TasksRepository.findByStatus
  rw [filter_map_comm store f _ (fun a => by simp [hf a])]
  exact (List.map_take f (store.filter fun t => t.status == st) limit).symm
/-- When every listed row is already greeted (or skipped), the loop touches
neither the store, the write counter, nor the SMS log. -/
theorem internalFold_noop (smsOk : Bool) (now : Int) (L : List TaskRow)
    (hL : ∀ t ∈ L, t.status = "assigned" → ¬ t.operator_id = none →
      ¬ t.operator_name = none → t.greeting_sent_at.isSome = true) :
    ∀ s : SvcState,
      (L.foldl (internalStep smsOk now) s).tasks = s.tasks
      ∧ (L.foldl (internalStep smsOk now) s).writes = s.writes
      ∧ (L.foldl (internalStep smsOk now) s).sms = s.sms := by
  induction L with
  | nil => intro s; exact ⟨rfl, rfl, rfl⟩
  | cons t L ih =>
    intro s
    have hstep : (internalStep smsOk now s t).tasks = s.tasks
        ∧ (internalStep smsOk now s t).writes = s.writes
        ∧ (internalStep smsOk now s t).sms = s.sms := by
      unfold internalStep
      by_cases hstat : (t.status == "assigned") = true
      · rw [if_neg (by simp [hstat])]
        by_cases hop : (t.operator_id.isNone || t.operator_name.isNone) = true
        · rw [if_pos hop]
          exact ⟨rfl, rfl, rfl⟩
        · rw [if_neg hop]
          have hop2 : ¬ t.operator_id = none ∧ ¬ t.operator_name = none := by
            simpa using hop
          have hg : t.greeting_sent_at.isSome = true :=
            hL t (by simp) (by simpa using hstat) hop2.1 hop2.2
          obtain ⟨g, hg'⟩ := Option.isSome_iff_exists.mp hg
          rw [hg']
          dsimp only
          by_cases hla : (match t.last_customer_activity_at with
              | some la => decide (g < la)
              | none => false) = true
          · rw [if_pos hla]
            exact ⟨rfl, rfl, rfl⟩
          · rw [if_neg hla]
            by_cases hin : t.inactive_sent_at.isSome = true
            · rw [if_pos hin]
              exact ⟨rfl, rfl, rfl⟩
            · rw [if_neg hin]
              exact ⟨rfl, rfl, rfl⟩
      · rw [if_pos (by simp [hstat])]
        exact ⟨rfl, rfl, rfl⟩
    have hrest := ih (fun u hu => hL u (by simp [hu])) (internalStep smsOk now s t)
    refine ⟨hrest.1.trans hstep.1, hrest.2.1.trans hstep.2.1, hrest.2.2.trans hstep.2.2⟩

/-- Internal pipeline idempotence: after a first tick in which every SMS send
succeeded, a second tick performs no persistence writes, sends nothing, and
leaves the internal store unchanged. -/
theorem internal_second_tick_no_writes (s : SvcState) (batch : Nat)
    (now1 now2 : Int) (smsOk2 : Bool) :
    (autoProcessInternalAssignedTasks
        (autoProcessInternalAssignedTasks s batch true now1) batch smsOk2 now2).tasks
      = (autoProcessInternalAssignedTasks s batch true now1).tasks
    ∧ (autoProcessInternalAssignedTasks
        (autoProcessInternalAssignedTasks s batch true now1) batch smsOk2 now2).writes
      = (autoProcessInternalAssignedTasks s batch true now1).writes
    ∧ (autoProcessInternalAssignedTasks
        (autoProcessInternalAssignedTasks s batch true now1) batch smsOk2 now2).sms
      = (autoProcessInternalAssignedTasks s batch true now1).sms := by
  unfold autoProcessInternalAssignedTasks
  have hfields := applyAll_fields true now1 (TasksRepository.findByStatus s.tasks "assigned" batch)
  have htasks1 : (((TasksRepository.findByStatus s.tasks "assigned" batch).foldl
        (internalStep true now1) s)).tasks
      = s.tasks.map (applyAll true now1 (TasksRepository.findByStatus s.tasks "assigned" batch)) :=
    internalFold_tasks true now1 _ s
  have hL2 : TasksRepository.findByStatus
        (((TasksRepository.findByStatus s.tasks "assigned" batch).foldl
          (internalStep true now1) s)).tasks "assigned" batch
      = (TasksRepository.findByStatus s.tasks "assigned" batch).map
          (applyAll true now1 (TasksRepository.findByStatus s.tasks "assigned" batch)) := by
    rw [htasks1]
    exact findByStatus_map s.tasks _ "assigned" batch (fun r => (hfields r).2.1)
  have hgreeted : ∀ t' ∈ TasksRepository.findByStatus
        (((TasksRepository.findByStatus s.tasks "assigned" batch).foldl
          (internalStep true now1) s)).tasks "assigned" batch,
      t'.status = "assigned" → ¬ t'.operator_id = none → ¬ t'.operator_name = none →
      t'.greeting_sent_at.isSome = true := by
    intro t' hmem _ hopid hopname
    rw [hL2] at hmem
    obtain ⟨t0, ht0, rfl⟩ := List.mem_map.mp hmem
    by_cases hg0 : t0.greeting_sent_at.isSome = true
    · exact applyAll_greeting_mono true now1 _ t0 hg0
    · have hg0' : t0.greeting_sent_at.isNone = true := by
        cases hcase : t0.greeting_sent_at
        · rfl
        · rw [hcase] at hg0
          exact absurd rfl hg0
      have ht0stat : (t0.status == "assigned") = true := by
        have hmem0 := List.mem_of_mem_take
          (by simpa [TasksRepository.findByStatus] using ht0 :
            t0 ∈ (s.tasks.filter (fun t => t.status == "assigned")).take batch)
        exact (List.mem_filter.mp hmem0).2
      have hopid0 : t0.operator_id.isSome = true := by
        apply isSome_of_ne_none
        intro hnone
        exact hopid (by rw [(hfields t0).2.2.1, hnone])
      have hopname0 : t0.operator_name.isSome = true := by
        apply isSome_of_ne_none
        intro hnone
        exact hopname (by rw [(hfields t0).2.2.2, hnone])
      have hact : stepActive true t0 = true := by
        simp [stepActive, ht0stat, hopid0, hopname0, hg0']
      exact applyAll_sets_greeting true now1 _ t0 t0 ht0 rfl hact
  exact internalFold_noop smsOk2 now2 _ hgreeted _
theorem find?_map_replaceRow (rows : List FlexTaskState) (sid : String)
    (row : FlexTaskState) (hrow : (row.task_sid == sid) = true)
    (hany : rows.any (fun t => t.task_sid == sid) = true) :
    (rows.map (fun t => if t.task_sid == sid then row else t)).find?
      (fun t => t.task_sid == sid) = some row := by
  induction rows with
  | nil => cases hany
  | cons x xs ih =>
    by_cases hx : (x.task_sid == sid) = true
    · rw [List.map_cons, if_pos hx]
      exact List.find?_cons_of_pos _ hrow
    · have hx' : (x.task_sid == sid) = false := by simpa using hx
      have hxs : xs.any (fun t => t.task_sid == sid) = true := by
        simpa [List.any_cons, hx'] using hany
      rw [List.map_cons, if_neg (by simp [hx'])]
      rw [List.find?_cons_of_neg _ (by simp [hx'])]
      exact ih hxs

theorem find?_appendRow (rows : List FlexTaskState) (sid : String)
    (row : FlexTaskState) (hrow : (row.task_sid == sid) = true)
    (hnone : rows.any (fun t => t.task_sid == sid) = false) :
    (rows ++ [row]).find? (fun t => t.task_sid == sid) = some row := by
  induction rows with
  | nil => simp [List.find?, hrow]
  | cons x xs ih =>
    rw [List.any_cons] at hnone
    have hboth := Bool.or_eq_false_iff.mp hnone
    simp only [List.cons_append, List.find?, hboth.1]
    exact ih hboth.2

theorem find?_putRow (rows : List FlexTaskState) (sid : String) (row : FlexTaskState)
    (hrow : (row.task_sid == sid) = true) :
    (FlexTasksRepository.putRow rows sid row).find? (fun t => t.task_sid == sid)
      = some row := by
  unfold FlexTasksRepository.putRow
  by_cases hany : rows.any (fun t => t.task_sid == sid) = true
  · rw [if_pos hany]
    exact find?_map_replaceRow rows sid row hrow hany
  · rw [if_neg hany]
    exact find?_appendRow rows sid row hrow (by simpa using hany)

/-- upsertBaseState always refreshes updated_at of the row and preserves the
four epoch columns of the pre-existing row. -/
theorem upsert_refreshes (store : FlexStore) (input : FlexTasksRepository.UpsertInput)
    (now : Int) :
    ∃ row, FlexTasksRepository.findByTaskSid
        (FlexTasksRepository.upsertBaseState store input now).1 input.taskSid = some row
      ∧ row.updated_at = now
      ∧ row.greeting_sent_at = (FlexTasksRepository.findByTaskSid store input.taskSid).bind
          (fun e => e.greeting_sent_at)
      ∧ row.ping_sent_at = (FlexTasksRepository.findByTaskSid store input.taskSid).bind
          (fun e => e.ping_sent_at)
      ∧ row.inactive_sent_at = (FlexTasksRepository.findByTaskSid store input.taskSid).bind
          (fun e => e.inactive_sent_at)
      ∧ row.last_customer_activity_at
          = (FlexTasksRepository.findByTaskSid store input.taskSid).bind
          (fun e => e.last_customer_activity_at) := by
  refine ⟨{ task_sid := input.taskSid
            conversation_sid := input.conversationSid
            channel_type := input.channelType
            customer_name := input.customerName
            customer_address := input.customerAddress
            customer_from := input.customerFrom
            worker_sid := input.workerSid
            worker_name := input.workerName
            task_assignment_status := input.assignmentStatus
            task_attributes := input.taskAttributes
            greeting_sent_at := (FlexTasksRepository.findByTaskSid store input.taskSid).bind
              (fun e => e.greeting_sent_at)
            ping_sent_at := (FlexTasksRepository.findByTaskSid store input.taskSid).bind
              (fun e => e.ping_sent_at)
            inactive_sent_at := (FlexTasksRepository.findByTaskSid store input.taskSid).bind
              (fun e => e.inactive_sent_at)
            last_customer_activity_at :=
              (FlexTasksRepository.findByTaskSid store input.taskSid).bind
              (fun e => e.last_customer_activity_at)
            created_at := ((FlexTasksRepository.findByTaskSid store input.taskSid).map
              (fun e => e.created_at)).getD now
            updated_at := now }, ?_, rfl, rfl, rfl, rfl, rfl⟩
  unfold FlexTasksRepository.upsertBaseState
  cases hconv : input.conversationSid with
  | some c =>
    dsimp only [hconv]
    unfold FlexTasksRepository.findByTaskSid
    exact find?_putRow store.tasks input.taskSid _ (by simp)
  | none =>
    dsimp only [hconv]
    unfold FlexTasksRepository.findByTaskSid
    exact find?_putRow store.tasks input.taskSid _ (by simp)
theorem upsert_writes_pos (store : FlexStore) (input : FlexTasksRepository.UpsertInput)
    (now : Int) : 1 ≤ (FlexTasksRepository.upsertBaseState store input now).2 := by
  unfold FlexTasksRepository.upsertBaseState
  cases h : input.conversationSid <;> simp [h]

/-- The flex loop body performs its base-state upsert for every task with a
Conversations sid and an accepted reservation, on every tick. -/
theorem processFlexTask_always_upserts (env : FlexEnv) (now : Int) (s : SvcState)
    (pt : ProviderTask) (c : String) (r : Reservation)
    (hconv : pt.attrs.conversationSid = some c)
    (hch : jsStartsWith c "CH" = true)
    (hres : pt.acceptedReservation = some r) :
    s.writes + 1 ≤ (processFlexTask env now s pt).writes := by
  unfold processFlexTask
  dsimp only
  rw [hconv]
  dsimp only
  rw [if_neg (by simp [hch])]
  rw [hres]
  dsimp only
  split
  · next es g heq =>
    split
    · simp_arith
      exact upsert_writes_pos _ _ _
    · split
      · simp_arith
        exact upsert_writes_pos _ _ _
      · simp_arith
        exact upsert_writes_pos _ _ _
  · next heq =>
    split
    · next =>
      split
      · simp_arith
        exact upsert_writes_pos _ _ _
      · simp_arith
        exact upsert_writes_pos _ _ _
    · next wid hwid =>
      split
      · simp_arith
        exact upsert_writes_pos _ _ _
      · simp_arith
/-- C2 amended: a second internal-pipeline tick after an all-sends-successful
first tick performs no persistence writes, sends nothing, and leaves the
internal store unchanged; the flex pipeline instead re-upserts the base
state of every polled task with a Conversations sid and an accepted
reservation on every tick, each upsert refreshing updated_at while
preserving the greeting-epoch columns. -/
theorem second_tick_internal_idempotent_flex_reupserts :
    (∀ (s : SvcState) (batch : Nat) (now1 now2 : Int) (smsOk2 : Bool),
      (autoProcessInternalAssignedTasks
          (autoProcessInternalAssignedTasks s batch true now1) batch smsOk2 now2).tasks
        = (autoProcessInternalAssignedTasks s batch true now1).tasks
      ∧ (autoProcessInternalAssignedTasks
          (autoProcessInternalAssignedTasks s batch true now1) batch smsOk2 now2).writes
        = (autoProcessInternalAssignedTasks s batch true now1).writes
      ∧ (autoProcessInternalAssignedTasks
          (autoProcessInternalAssignedTasks s batch true now1) batch smsOk2 now2).sms
        = (autoProcessInternalAssignedTasks s batch true now1).sms)
    ∧ (∀ (store : FlexStore) (input : FlexTasksRepository.UpsertInput) (now : Int),
      ∃ row, FlexTasksRepository.findByTaskSid
          (FlexTasksRepository.upsertBaseState store input now).1 input.taskSid = some row
        ∧ row.updated_at = now
        ∧ row.greeting_sent_at = (FlexTasksRepository.findByTaskSid store input.taskSid).bind
            (fun e => e.greeting_sent_at)
        ∧ row.ping_sent_at = (FlexTasksRepository.findByTaskSid store input.taskSid).bind
            (fun e => e.ping_sent_at)
        ∧ row.inactive_sent_at = (FlexTasksRepository.findByTaskSid store input.taskSid).bind
            (fun e => e.inactive_sent_at)
        ∧ row.last_customer_activity_at
            = (FlexTasksRepository.findByTaskSid store input.taskSid).bind
            (fun e => e.last_customer_activity_at))
    ∧ (∀ (env : FlexEnv) (now : Int) (s : SvcState) (pt : ProviderTask)
        (c : String) (r : Reservation),
      pt.attrs.conversationSid = some c →
      jsStartsWith c "CH" = true →
      pt.acceptedReservation = some r →
      s.writes + 1 ≤ (processFlexTask env now s pt).writes) :=
  ⟨fun s batch now1 now2 smsOk2 => internal_second_tick_no_writes s batch now1 now2 smsOk2,
   fun store input now => upsert_refreshes store input now,
   fun env now s pt c r hconv hch hres =>
     processFlexTask_always_upserts env now s pt c r hconv hch hres⟩

/-- Concrete provider task and environment for the C2 counterexample. -/
def ptRepoll : ProviderTask :=
  { sid := "WT1"
    attributesRaw := "{}"
    attrs := { conversationSid := some "CH1", fromField := some "+551" }
    assignmentStatus := "assigned"
    acceptedReservation := some { workerName := some "Bia", workerSid := "WK1" }
    participants := []
    workerFetch := none }

def envRepoll : FlexEnv :=
  { clientConfigured := true
    configuredWorkspaceSid := some "WS1"
    workspaces := []
    pollLimit := 50
    tasks := [ptRepoll]
    convSendOk := fun _ => true
    automationAuthorRaw := none }

/-- Flex store before the two ticks: the task is already greeted. -/
def sRepoll : SvcState :=
  { flex := ⟨[{ task_sid := "WT1", conversation_sid := some "CH1",
                customer_name := some "Ana", customer_from := some "+551",
                worker_sid := some "WK1", worker_name := some "Bia",
                task_assignment_status := some "assigned",
                task_attributes := some "{}",
                greeting_sent_at := some 0, created_at := 0, updated_at := 0 }],
             [("CH1", "WT1")]⟩ }

/-- C2 counterexample: after a successful tick at t=1000, a second tick at
t=2000 on unchanged task data writes again (the base-state upsert), so the
persistence state after the second tick differs from the state after the
first. -/
theorem second_tick_writes_counterexample :
    ((autoProcessAssignedTasks envRepoll none 100 true
        (autoProcessAssignedTasks envRepoll none 100 true sRepoll 1000).1 2000).1.flex
      ≠ (autoProcessAssignedTasks envRepoll none 100 true sRepoll 1000).1.flex)
    ∧ ((autoProcessAssignedTasks envRepoll none 100 true sRepoll 1000).1.writes
      < (autoProcessAssignedTasks envRepoll none 100 true
          (autoProcessAssignedTasks envRepoll none 100 true sRepoll 1000).1 2000).1.writes) := by
  constructor
  · decide
  · decide

/-- Witness for C2 at the concrete repolled task. -/
theorem second_tick_flex_upsert_witness :
    (ptRepoll.attrs.conversationSid = some "CH1"
      ∧ jsStartsWith "CH1" "CH" = true
      ∧ ptRepoll.acceptedReservation = some { workerName := some "Bia", workerSid := "WK1" })
    ∧ sRepoll.writes + 1 ≤ (processFlexTask envRepoll 2000 sRepoll ptRepoll).writes :=
  ⟨⟨rfl, by decide, rfl⟩,
   second_tick_internal_idempotent_flex_reupserts.2.2 envRepoll 2000 sRepoll ptRepoll
     "CH1" { workerName := some "Bia", workerSid := "WK1" } rfl (by decide) rfl⟩
